import Mathlib

/-!
Verification of the `mldata.py` preprocessing engine (`FeatureGuide`,
`PandasFullDataset`, `PandasDatasetSplitter`, `PandasTrainTestSplit`).

Tables are shallowly embedded column-oriented: a table is a list of
(column name, cell list) pairs, a cell is `Option ℚ` where `none` stands
for a missing value (pandas `NaN`).  Stateful methods that mutate the
object in place are embedded as functions `Split → Split × Option PyError`:
the returned state is the state of the object at the moment the method
returns or raises, and the second component is the exception, if any.
-/

/-- Python exceptions raised by the code under verification. -/
inductive PyError
  | valueError (msg : String)
  | keyError (msg : String)
  | attributeError (msg : String)
  | typeError (msg : String)
  | nameError (msg : String)
  | indexError (msg : String)
  deriving Repr, DecidableEq

deriving instance DecidableEq for Except

/-- A table cell: `none` models pandas `NaN` / a missing value.
Cells carry exact rationals; float rounding and the irreflexivity of
`NaN == NaN` are not modelled (cells compare as exact values). -/
abbrev Cell := Option ℚ

/-- Python dict lookup on an association list (insertion ordered). -/
def dget (k : String) : List (String × β) → Option β
  | [] => none
  | (k', v) :: rest => if k' = k then some v else dget k rest

/-- Python dict assignment `d[k] = v`: replace in place if present, else append. -/
def dset (k : String) (v : β) : List (String × β) → List (String × β)
  | [] => [(k, v)]
  | (k', v') :: rest => if k' = k then (k, v) :: rest else (k', v') :: dset k v rest

/-- A pandas `DataFrame`, column-oriented: list of (name, cells) pairs.
The positional row index is implicit; `loc`-alignment issues do not arise
because every embedded assignment is columnwise and row-aligned. -/
structure Table where
  cols : List (String × List Cell)
  deriving Repr, DecidableEq

def Table.colNames (t : Table) : List String := t.cols.map Prod.fst

/-- Python `col in df.columns`. -/
def Table.hasCol (t : Table) (c : String) : Bool := t.colNames.contains c

/-- First column with a given name in an association list of columns. -/
def colFind (c : String) : List (String × List Cell) → List Cell
  | [] => []
  | p :: rest => if p.1 = c then p.2 else colFind c rest

/-- Python `df[c]` as a list of cells; `[]` when the column is absent
(the callers below check presence first wherever pandas would raise). -/
def Table.col (t : Table) (c : String) : List Cell :=
  colFind c t.cols

/-- Columnwise in-place assignment `df.loc[:, c] = df[c].apply(f)`. -/
def Table.mapCol (t : Table) (c : String) (f : Cell → Cell) : Table :=
  ⟨t.cols.map (fun p => if p.1 = c then (p.1, p.2.map f) else p)⟩

/-- Python `df.pop(c)` / dropping a column. -/
def Table.dropCol (t : Table) (c : String) : Table :=
  ⟨t.cols.filter (fun p => p.1 ≠ c)⟩

/-- Python `df.shape[0]`: the row count (length of the columns; 0 for a columnless table). -/
def Table.nRows (t : Table) : Nat :=
  match t.cols with
  | [] => 0
  | p :: _ => p.2.length

/-- Python `df.shape[1]`: the column count. -/
def Table.nCols (t : Table) : Nat := t.cols.length

/-- Keep the rows whose mask bit is `true` (boolean row indexing `df[mask]`). -/
def applyMask : List Bool → List Cell → List Cell
  | b :: bs, v :: vs => if b then v :: applyMask bs vs else applyMask bs vs
  | _, _ => []

def Table.filterRows (t : Table) (mask : List Bool) : Table :=
  ⟨t.cols.map (fun p => (p.1, applyMask mask p.2))⟩

/-- Python `df[names]`: select (and reorder) columns. -/
def Table.selectCols (t : Table) (names : List String) : Table :=
  ⟨names.map (fun n => (n, t.col n))⟩

/-- Python `pd.Series.unique()`: distinct values in order of first occurrence. -/
def uniqueAux [DecidableEq α] (seen : List α) : List α → List α
  | [] => []
  | x :: xs => if x ∈ seen then uniqueAux seen xs else x :: uniqueAux (x :: seen) xs

def uniqueFirst [DecidableEq α] (l : List α) : List α := uniqueAux [] l

/-- Order on cells used by `np.sort`; all sorted data in the claims is
non-null, the `none` cases are arbitrary tie-breaking. -/
def cellLe (a b : Cell) : Bool :=
  match a, b with
  | some x, some y => decide (x ≤ y)
  | none, _ => true
  | some _, none => false

def insertCell (x : Cell) : List Cell → List Cell
  | [] => [x]
  | y :: ys => if cellLe x y then x :: y :: ys else y :: insertCell x ys

def sortCells : List Cell → List Cell
  | [] => []
  | x :: xs => insertCell x (sortCells xs)

/-- Python `Series.fillna(fill)`: missing cells get `fill`; note that when `fill`
is itself `NaN` (`none`) the cell stays missing. -/
def fillnaCell (fill : Cell) : Cell → Cell
  | none => fill
  | some x => some x

/-- Python `Series.median()` as pandas computes it: null cells are skipped, the
median of an empty / all-null column is `NaN` (`none`). -/
def qmedian (vs : List Cell) : Cell :=
  let xs := sortCells ((vs.filterMap id).map some)
  match xs with
  | [] => none
  | _ =>
    let n := xs.length
    if n % 2 = 1 then (xs.get? (n / 2)).getD none
    else
      match xs.get? (n / 2 - 1), xs.get? (n / 2) with
      | some (some a), some (some b) => some ((a + b) / 2)
      | _, _ => none

/-- Python `FeatureGuide`: the six sections of the schema.  The source stores the
feature sections as `OrderedSet`s; here they are insertion-ordered duplicate-free
lists.  `target` is already extracted from its singleton list (`restore`). -/
structure FeatureGuide where
  target : String
  index : List String
  key : List String
  entities : List String
  categoricals : List String
  real_valueds : List String
  deriving Repr, DecidableEq

/-- Python `OrderedSet` union `a | b`: keep `a`, append the members of `b` not in `a`. -/
def osUnion (a b : List String) : List String := a ++ b.filter (fun x => x ∉ a)

/-- Python `FeatureGuide.feature_names`: union of the feature sections.  The source
folds over `feature_sections`, a tuple built from a Python set, so its order is
an implementation detail; we fix the order entities, categoricals, real_valueds. -/
def FeatureGuide.feature_names (fg : FeatureGuide) : List String :=
  osUnion (osUnion fg.entities fg.categoricals) fg.real_valueds

/-- Python `FeatureGuide.all_names = feature_names + [target] + list(index)`. -/
def FeatureGuide.all_names (fg : FeatureGuide) : List String :=
  fg.feature_names ++ [fg.target] ++ fg.index

/-- Python `FeatureGuide.remove(name)`.  Note that the source's first guard is
`if name in self.other_sections`, where `other_sections` is the tuple of
SECTION NAMES `('target', 'index')` — it compares `name` against the literal
strings "target" and "index", not against the guide's target or index fields.
The removal loop runs over `feature_sections = {key, entities, categoricals,
real_valueds}` (a set, order irrelevant here), counting sections hit; `name`
cannot be in `key` at that point, and an `OrderedSet.remove` that misses is
caught, so on a final `KeyError` no section was modified. -/
def FeatureGuide.remove (fg : FeatureGuide) (name : String) :
    Except PyError FeatureGuide :=
  if name = "target" ∨ name = "index" then
    .error (.attributeError "cannot remove feature from sections: target, index")
  else if name ∈ fg.key then
    .error (.attributeError "cannot remove features in key")
  else if name ∈ fg.entities ∨ name ∈ fg.categoricals ∨ name ∈ fg.real_valueds then
    .ok { fg with entities := fg.entities.erase name,
                  categoricals := fg.categoricals.erase name,
                  real_valueds := fg.real_valueds.erase name }
  else
    .error (.keyError ("feature " ++ name ++ " not in feature guide"))

/-- The parameters a fitted `sklearn.preprocessing.StandardScaler` holds:
`transform` is `x ↦ (x - mean)/scale`, `inverse_transform` is
`x ↦ x*scale + mean`.  Fitting computes `mean` and `scale = std` of the
training column; because a standard deviation is in general irrational, the
fitting function is kept as an explicit parameter `fit` of `scale` below, and
every theorem quantifies over it. -/
structure Scaler where
  mean : ℚ
  scale : ℚ
  deriving Repr, DecidableEq

def Scaler.transform (sc : Scaler) (x : ℚ) : ℚ := Rat.div (x - sc.mean) sc.scale

def Scaler.inverseTransform (sc : Scaler) (x : ℚ) : ℚ := x * sc.scale + sc.mean

/-- Lift a scaler map over a cell (`NaN` maps to `NaN`). -/
def cellMap (f : ℚ → ℚ) : Cell → Cell
  | none => none
  | some x => some (f x)

/-- Python `PandasTrainTestSplit`: the two tables, the feature guide, and the
transform-state dicts.  `column_maps[col]` stores the list `ids` of original
ids in first-occurrence order, which determines the source's
`reverse_map = {new_id: orig_id} = {k: ids[k]}`. -/
structure Split where
  train : Table
  test : Table
  fguide : FeatureGuide
  column_maps : List (String × List Cell)
  imputations : List (String × Cell)
  scalers : List (String × (Scaler × Bool))
  deriving Repr, DecidableEq

/-- Python `PandasTrainTestSplit.__init__`: the three sanity checks, then the fresh
transform state.  Only the column COUNTS are compared. -/
def mkSplit (train test : Table) (fg : FeatureGuide) : Except PyError Split :=
  if train.nRows = 0 then .error (.valueError "training set has 0 samples")
  else if test.nRows = 0 then .error (.valueError "testing set has 0 samples")
  else if train.nCols ≠ test.nCols then
    .error (.valueError "num train cols != num test cols")
  else .ok { train := train, test := test, fguide := fg,
             column_maps := [], imputations := [], scalers := [] }

/-- Python `verify_columns_in_dataset`: raise `KeyError` at the first requested
column missing from the TRAIN table (`all_cols = self.train.columns`). -/
def Split.verifyColumns (s : Split) (columns : List String) : Option PyError :=
  match columns.find? (fun c => !(s.train.hasCol c)) with
  | some c => some (.keyError ("column " ++ c ++ " not in dataset"))
  | none => none

/-- Python `df[column].isnull().sum() == len(df)` on the train table. -/
def Table.columnIsAllNull (t : Table) (c : String) : Bool :=
  ((t.col c).countP (fun x => x.isNone)) == t.nRows

def Split.trainColumnIsAllNull (s : Split) (c : String) : Bool :=
  s.train.columnIsAllNull c

/-- Python `remove_feature(name)`: `self.fguide.remove(name)` (in-place on the guide),
then `self.train.pop(name)`, then `self.test.pop(name)`; each `pop` raises
`KeyError` when the column is absent, with the earlier mutations kept. -/
def Split.removeFeature (s : Split) (name : String) : Split × Option PyError :=
  match s.fguide.remove name with
  | .error e => (s, some e)
  | .ok fg' =>
    if s.train.hasCol name then
      if s.test.hasCol name then
        ({ s with fguide := fg', train := s.train.dropCol name,
                  test := s.test.dropCol name }, none)
      else
        ({ s with fguide := fg', train := s.train.dropCol name },
         some (.keyError name))
    else ({ s with fguide := fg' }, some (.keyError name))

/-- The `all_null='raise'` pre-pass: raise at the first requested column that
is entirely null in the training partition, before mutating anything. -/
def Split.imputeRaiseCheck (s : Split) (columns : List String) : Option PyError :=
  match columns.find? (fun c => s.trainColumnIsAllNull c) with
  | some c => some (.valueError ("all null column " ++ c))
  | none => none

/-- The body of one iteration of `impute`'s main loop once the all-null
branching is done: compute the fill value from the TRAIN column only, fill
both columns with it, record it.  `self.test[col]` raises `KeyError` when the
test table lacks the column — note that this happens AFTER the train column
was filled and BEFORE the fill value is recorded.  (The train column is
present: `verify_columns_in_dataset` checked it, and the all-null check of a
dropped duplicate raises first in Python; we keep the same guard here.) -/
def imputeOne (method : List Cell → Cell) (s : Split) (col : String) :
    Split × Option PyError :=
  if s.train.hasCol col then
    let fill := method (s.train.col col)
    let s' := { s with train := s.train.mapCol col (fillnaCell fill) }
    if s.test.hasCol col then
      ({ s' with test := s'.test.mapCol col (fillnaCell fill),
                 imputations := dset col fill s'.imputations }, none)
    else (s', some (.keyError col))
  else (s, some (.keyError col))

/-- Python `impute`'s main loop.  For an all-null train column: `drop` removes the
feature and `continue`s; any other policy only LOGS — the branch has no
`continue`, so the column falls through and is imputed like the rest. -/
def imputeLoop (method : List Cell → Cell) (all_null : String) :
    Split → List String → Split × Option PyError
  | s, [] => (s, none)
  | s, col :: rest =>
    if s.trainColumnIsAllNull col ∧ all_null = "drop" then
      match s.removeFeature col with
      | (s', none) => imputeLoop method all_null s' rest
      | (s', some e) => (s', some e)
    else
      match imputeOne method s col with
      | (s', none) => imputeLoop method all_null s' rest
      | (s', some e) => (s', some e)

/-- Python `PandasTrainTestSplit.impute(columns, method, all_null)`.  `method` names a
`pandas.Series` method computing the fill statistic of the train column; it is
embedded as the function itself. -/
def Split.impute (s : Split) (columns : List String)
    (method : List Cell → Cell) (all_null : String) : Split × Option PyError :=
  if ¬ (all_null = "drop" ∨ all_null = "raise" ∨ all_null = "ignore") then
    (s, some (.valueError "all_null must be one of: drop, raise, ignore"))
  else match s.verifyColumns columns with
  | some e => (s, some e)
  | none =>
    match (if all_null = "raise" then s.imputeRaiseCheck columns else none) with
    | some e => (s, some e)
    | none => imputeLoop method all_null s columns

/-- Python `scale`'s loop body: a column whose scaler is marked scaled is skipped;
otherwise the scaler is (re)fitted on the TRAIN column only
(`scaler.fit_transform(self.train[[col]])`), recorded as the tuple
`(scaler, True)`, and the SAME fitted parameters transform the test column
(`scaler.transform(self.test[[col]])`), which raises `KeyError` when the test
table lacks the column — after the scaler was stored and train transformed. -/
def scaleLoop (fit : List Cell → Scaler) :
    Split → List String → Split × Option PyError
  | s, [] => (s, none)
  | s, col :: rest =>
    match dget col s.scalers with
    | some (_, true) => scaleLoop fit s rest
    | _ =>
      let sc := fit (s.train.col col)
      let s' := { s with scalers := dset col (sc, true) s.scalers,
                         train := s.train.mapCol col (cellMap sc.transform) }
      if s.test.hasCol col then
        scaleLoop fit { s' with test := s'.test.mapCol col (cellMap sc.transform) } rest
      else (s', some (.keyError col))

def Split.scale (s : Split) (columns : List String) (fit : List Cell → Scaler) :
    Split × Option PyError :=
  match s.verifyColumns columns with
  | some e => (s, some e)
  | none => scaleLoop fit s columns

/-- Python `unscale`'s loop: `scalers.get(col, (0, 0))` — a never-scaled column is
skipped (logged).  For a scaled column both tables are restored in place with
`scaler.inverse_transform`, and then the source executes
`self.scalers[col][1] = False  # mark not scaled`: item assignment into the
TUPLE stored by `scale`, which raises `TypeError` — after the values were
restored and with the scaled flag still `True`.  (As in `scale`, a test table
lacking the column raises `KeyError` right after the train column is
restored.) -/
def unscaleLoop : Split → List String → Split × Option PyError
  | s, [] => (s, none)
  | s, col :: rest =>
    match (dget col s.scalers).getD (⟨0, 0⟩, false) with
    | (_, false) => unscaleLoop s rest
    | (sc, true) =>
      let s' := { s with train := s.train.mapCol col (cellMap sc.inverseTransform) }
      if s.test.hasCol col then
        ({ s' with test := s'.test.mapCol col (cellMap sc.inverseTransform) },
         some (.typeError "tuple does not support item assignment"))
      else (s', some (.keyError col))

def Split.unscale (s : Split) (columns : List String) : Split × Option PyError :=
  match s.verifyColumns columns with
  | some e => (s, some e)
  | none => unscaleLoop s columns

/-- Python `idmap` application: `ids` lists the distinct original ids of
`pd.concat((train[col], test[col]))` in first-occurrence order, and
`idmap[_id]` is the position of `_id` in `ids`.  Every cell of either column
occurs in `ids`, so the `none` fallback is unreachable (Python would raise
`KeyError`). -/
def idmapApply (ids : List Cell) (c : Cell) : Cell :=
  match ids.findIdx? (fun x => x = c) with
  | some k => some ((k : ℚ))
  | none => c

/-- Python `reverse_map` application: a mapped cell is `some (k : ℚ)` with
`k < ids.length`, and `reverse_map[k] = ids[k]`; other cells are unreachable
(`KeyError` in Python). -/
def reverseApply (ids : List Cell) (c : Cell) : Cell :=
  match c with
  | some q => (ids.get? q.num.toNat).getD c
  | none => c

/-- Python `map_column_to_index(col)`: a no-op when the column is already mapped;
otherwise build `ids` from the union of train and test values
(`pd.concat((self.train[col], self.test[col])).unique()`), rewrite both
columns in place, and store the reverse map.  `self.train[col]` /
`self.test[col]` raise `KeyError` when the column is absent. -/
def Split.map_column_to_index (s : Split) (col : String) : Split × Option PyError :=
  if (dget col s.column_maps).isSome then (s, none)
  else if ¬ s.train.hasCol col then (s, some (.keyError col))
  else if ¬ s.test.hasCol col then (s, some (.keyError col))
  else
    let ids := uniqueFirst (s.train.col col ++ s.test.col col)
    (({ s with train := s.train.mapCol col (idmapApply ids),
               test := s.test.mapCol col (idmapApply ids),
               column_maps := dset col ids s.column_maps }), none)

/-- Python `unmap_column_from_index(col)` with the default `not_mapped='raise'`:
an unmapped column raises `ValueError`.  For a mapped column the train and
test columns are restored in place, and then the source executes
`self.dataset[col] = self.dataset[col].apply(...)` — but `PandasTrainTestSplit`
never defines an attribute `dataset` (only `PandasFullDataset` does), so
`AttributeError` is raised there, BEFORE `del self.column_maps[col]`: the
restored values stay, the map entry is never removed. -/
def Split.unmap_column_from_index (s : Split) (col : String) :
    Split × Option PyError :=
  match dget col s.column_maps with
  | none => (s, some (.valueError ("column " ++ col ++ " was not mapped to an index")))
  | some ids =>
    if ¬ s.train.hasCol col then (s, some (.keyError col))
    else if ¬ s.test.hasCol col then
      ({ s with train := s.train.mapCol col (reverseApply ids) }, some (.keyError col))
    else
      (({ s with train := s.train.mapCol col (reverseApply ids),
                 test := s.test.mapCol col (reverseApply ids) }),
       some (.attributeError "PandasTrainTestSplit object has no attribute dataset"))

/-- One iteration of `remove_cold_start`:
`diff = np.setdiff1d(self.test[key], self.train[key])` and
`self.test = self.test[~self.test[key].isin(diff)]`.  A `key` column missing
from either table raises `KeyError` in Python; the caller below checks. -/
def coldStartStep (s : Split) (key : String) : Split :=
  let trainVals := s.train.col key
  let testVals := s.test.col key
  let diff := testVals.filter (fun v => v ∉ trainVals)
  let mask := testVals.map (fun v => decide (v ∉ diff))
  { s with test := s.test.filterRows mask }

def coldStartLoop : Split → List String → Split × Option PyError
  | s, [] => (s, none)
  | s, key :: rest =>
    if s.test.hasCol key ∧ s.train.hasCol key then
      coldStartLoop (coldStartStep s key) rest
    else (s, some (.keyError key))

/-- Python `remove_cold_start(entities=None)`: default to all entities of the guide. -/
def Split.remove_cold_start (s : Split) (entities : Option (List String)) :
    Split × Option PyError :=
  coldStartLoop s (entities.getD s.fguide.entities)

/-! ### `PandasFullDataset` and `PandasDatasetSplitter` -/

structure PandasFullDataset where
  dataset : Table
  fguide : FeatureGuide
  deriving Repr, DecidableEq

/-- Python `PandasTrainTestSplit.from_dfs` for guides declaring no index and no key,
where `index_from_feature_guide` returns `None`: the row index is reset to the
positional one (implicit in our `Table`) and the tables are restricted to the
guide's columns.  We use it on tables containing exactly those columns;
pandas would raise on a missing one. -/
def mkFromDfs (train test : Table) (fg : FeatureGuide) : Except PyError Split :=
  mkSplit (train.selectCols fg.all_names) (test.selectCols fg.all_names) fg

/-- Python `PandasFullDataset.split(train_mask, test_mask)`. -/
def PandasFullDataset.split (ds : PandasFullDataset)
    (trainMask testMask : List Bool) : Except PyError Split :=
  mkFromDfs (ds.dataset.filterRows trainMask) (ds.dataset.filterRows testMask)
    ds.fguide

/-- The comparison operators of `Dataset.ops`, elementwise on a column against
a scalar threshold; any comparison involving `NaN` is false. -/
def cellLt (a b : Cell) : Bool :=
  match a, b with
  | some x, some y => decide (x < y)
  | _, _ => false

def cellEqOp (a b : Cell) : Bool :=
  match a, b with
  | some x, some y => decide (x = y)
  | _, _ => false

/-- Python `column >= min_val` elementwise. -/
def cellGe (a b : Cell) : Bool :=
  match a, b with
  | some x, some y => decide (y ≤ x)
  | _, _ => false

def cellSub (a : Cell) (w : ℚ) : Cell := a.map (fun x => x - w)

def cellMinPy (a b : Cell) : Cell :=
  match a, b with
  | some x, some y => if x ≤ y then some x else some y
  | _, _ => none

/-- Python `min(self.unique_values)`; `none` stands for the `ValueError` on an empty
column (unreachable: split tables are nonempty). -/
def listMinCell : List Cell → Cell
  | [] => none
  | x :: xs => xs.foldl cellMinPy x

structure PandasDatasetSplitter where
  dataset : PandasFullDataset
  colname : String
  train_cmp : Cell → Cell → Bool
  test_cmp : Cell → Cell → Bool
  window : Option ℚ

/-- Python `PandasFullDataset.split_loop(col, train_cmp, test_cmp, window=None)`.
The source's body is
`return PandasDatasetSplitter(self, col, train_cmp, test_cmp, window=None)`:
the constructor is passed the literal `None`, so the `window` argument given
to `split_loop` is dropped. -/
def PandasFullDataset.split_loop (ds : PandasFullDataset) (col : String)
    (train_cmp test_cmp : Cell → Cell → Bool) (window : Option ℚ) :
    PandasDatasetSplitter :=
  { dataset := ds, colname := col, train_cmp := train_cmp,
    test_cmp := test_cmp, window := none }

/-- Python `PandasDatasetSplitter.__iter__` as the list of produced splits, one per
distinct value of the column in first-occurrence order (`Series.unique`). -/
def PandasDatasetSplitter.iterSplits (sp : PandasDatasetSplitter) :
    List (Except PyError Split) :=
  let column := sp.dataset.dataset.col sp.colname
  let uniq := uniqueFirst column
  let globalMin := listMinCell uniq
  uniq.map (fun v =>
    let minVal := match sp.window with
      | none => globalMin
      | some w => cellSub v w
    let constraint := column.map (fun c => cellGe c minVal)
    let trainMask :=
      List.zipWith (fun a b => a && b) (column.map (fun c => sp.train_cmp c v))
        constraint
    let testMask := column.map (fun c => sp.test_cmp c v)
    sp.dataset.split trainMask testMask)

/-! ### One-hot encoding and `preprocess` -/

/-- A dense row-major numeric matrix (`values` of a DataFrame, or the rows of
the sparse matrices the source assembles). -/
abbrev Mat := List (List Cell)

/-- Python `scipy.sparse.hstack` / horizontal concatenation of row-aligned blocks. -/
def hcat (a b : Mat) : Mat := List.zipWith (fun r q => r ++ q) a b

def hcatAll : List Mat → Mat
  | [] => []
  | m :: ms => ms.foldl hcat m

/-- Row-major extraction `df[names].values`. -/
def Table.rowsOf (t : Table) (names : List String) : Mat :=
  (List.range t.nRows).map (fun i => names.map (fun n => ((t.col n).get? i).getD none))

/-- The label `'%s-%d' % (column, idx)` uses the level's value; entity and
categorical ids are integer-valued, rendered via the numerator. -/
def cellLabel : Cell → String
  | some q => toString q.num
  | none => "nan"

/-- The one-hot levels of a column: `np.sort(both_sets[column].unique())`.
The old `OneHotEncoder(n_values='auto')` keeps exactly the observed values as
active features, so the encoded block of a column has one 0/1 column per
distinct value, in ascending value order. -/
def ohcLevels (train test : Table) (c : String) : List Cell :=
  sortCells (uniqueFirst (train.col c ++ test.col c))

def ohcRow (levels : List Cell) (c : Cell) : List Cell :=
  levels.map (fun l => if l = c then some 1 else some 0)

/-- Python `one_hot_encode(columns)` for a nonempty column list: encode the
concatenation of train and test, split the rows back apart, and build the
feature map column by column. -/
def encodeTables (train test : Table) (columns : List String) :
    Mat × Mat × List String :=
  let blocksT := columns.map (fun c => (train.col c).map (ohcRow (ohcLevels train test c)))
  let blocksE := columns.map (fun c => (test.col c).map (ohcRow (ohcLevels train test c)))
  let fmap := (columns.map (fun c =>
    (ohcLevels train test c).map (fun v => c ++ "-" ++ cellLabel v))).flatten
  (hcatAll blocksT, hcatAll blocksE, fmap)

/-- Substring test on character lists (Python's `pat in hay`).  The Python
semantics of the empty pattern (always found) holds except on the empty
haystack; patterns here are nonempty column names. -/
def listEqUpTo : List Char → List Char → Bool
  | [], _ => true
  | _ :: _, [] => false
  | a :: as, b :: bs => a == b && listEqUpTo as bs

def listSub (pat : List Char) : List Char → Bool
  | [] => listEqUpTo pat []
  | h :: rest => listEqUpTo pat (h :: rest) || listSub pat rest

def strContains (hay pat : String) : Bool := listSub pat.data hay.data

/-- The `nf_ents` scan of `preprocess`: walk `zip(fmap, range(nf_ohc))` from
the back and stop at the first label containing the last entity's name as a
substring; if no label matches, the loop leaves `i` at index 0. -/
def lastIdxContaining (ent : String) (fmap : List String) : Option Nat :=
  ((fmap.enum.filter (fun p => strContains p.2 ent)).getLast?).map Prod.fst

/-- The columns `preprocess` one-hot encodes (`to_ohc`):
`if use_ents and ohc_ents: to_ohc |= entities` and then, unconditionally,
`to_ohc |= categoricals` — the `use_cats` / `ohc_cats` arguments are accepted
but never consulted here (their handling is a TODO comment in the source). -/
def preprocessOhcColumns (fg : FeatureGuide) (use_ents ohc_ents : Bool)
    (use_cats ohc_cats : Bool) : List String :=
  osUnion (if use_ents && ohc_ents then fg.entities else []) fg.categoricals

structure PreprocessResult where
  trainX : Mat
  trainY : List Cell
  trainEids : List (String × List Cell)
  testX : Mat
  testY : List Cell
  testEids : List (String × List Cell)
  fmap : List String
  nf_ents : Nat
  deriving Repr, DecidableEq

/-- Entity mapping loop at the top of `preprocess`. -/
def Split.mapEntities : Split → List String → Split × Option PyError
  | s, [] => (s, none)
  | s, e :: rest =>
    match s.map_column_to_index e with
    | (s', none) => Split.mapEntities s' rest
    | (s', some err) => (s', some err)

/-- Steps (5)-(7) of `preprocess`: one-hot encoding, entity bookkeeping, and
final matrix assembly.  `encPair = none` models the Python situation where
`train_enc_cats` was never assigned (`to_ohc` empty) and a later use raises
`NameError`. -/
def preprocessEncode (s3 : Split)
    (trainEids testEids : List (String × List Cell))
    (use_ents ohc_ents use_cats ohc_cats : Bool) :
    Split × Except PyError PreprocessResult :=
  let to_ohc := preprocessOhcColumns s3.fguide use_ents ohc_ents use_cats ohc_cats
  let encRes : Option (Mat × Mat × List String) :=
    if to_ohc.isEmpty then none else some (encodeTables s3.train s3.test to_ohc)
  let fmap0 := match encRes with
    | some (_, _, f) => f
    | none => []
  let entsBranch : Except PyError (Option (Mat × Mat) × List String × Nat) :=
    if use_ents then
      if ohc_ents then
        -- last_ent = self.fguide.entities[-1]: IndexError on an empty list;
        -- then the reversed scan of zip(fmap, range(nf_ohc)): on an empty
        -- fmap the loop never runs and `i` is unbound (NameError)
        match s3.fguide.entities.getLast? with
        | none => .error (.indexError "list index out of range")
        | some lastEnt =>
          match encRes, fmap0 with
          | some (trE, teE, _), _ :: _ =>
            .ok (some (trE, teE), fmap0, ((lastIdxContaining lastEnt fmap0).getD 0) + 1)
          | _, _ => .error (.nameError "i")
      else
        -- prepend the raw (index-mapped) entity columns to the matrices and
        -- their names to the feature map
        match encRes with
        | some (trE, teE, _) =>
          .ok (some (hcat (s3.train.rowsOf s3.fguide.entities) trE,
                     hcat (s3.test.rowsOf s3.fguide.entities) teE),
               s3.fguide.entities ++ fmap0, s3.fguide.entities.length)
        | none => .error (.nameError "train_enc_cats")
    else .ok (encRes.map (fun r => (r.1, r.2.1)), fmap0, 0)
  match entsBranch with
  | .error e => (s3, .error e)
  | .ok (encPair, fmap1, nf_ents) =>
    let only_reals := !use_ents && !use_cats
    let reals := s3.fguide.real_valueds
    let fmap2 := fmap1 ++ reals
    let trainY := s3.train.col s3.fguide.target
    let testY := s3.test.col s3.fguide.target
    if reals.length = 0 then
      if only_reals then
        (s3, .error (.valueError "no real values and not using ents or cats"))
      else
        match encPair with
        | some (trX, teX) =>
          (s3, .ok { trainX := trX, trainY := trainY, trainEids := trainEids,
                     testX := teX, testY := testY, testEids := testEids,
                     fmap := fmap2, nf_ents := nf_ents })
        | none => (s3, .error (.nameError "train_enc_cats"))
    else
      if only_reals then
        (s3, .ok { trainX := s3.train.rowsOf reals, trainY := trainY,
                   trainEids := trainEids, testX := s3.test.rowsOf reals,
                   testY := testY, testEids := testEids,
                   fmap := fmap2, nf_ents := nf_ents })
      else
        match encPair with
        | some (trX, teX) =>
          (s3, .ok { trainX := hcat trX (s3.train.rowsOf reals), trainY := trainY,
                     trainEids := trainEids,
                     testX := hcat teX (s3.test.rowsOf reals), testY := testY,
                     testEids := testEids, fmap := fmap2, nf_ents := nf_ents })
        | none => (s3, .error (.nameError "train_enc_cats"))

/-- Python `PandasTrainTestSplit.preprocess`.  `imputeFlag` embeds the source's
`impute` parameter, which the body never consults (`impute_reals` is always
called); `rcs` embeds the boolean form of `remove_cold_start`; `fit` stands
for `StandardScaler` fitting (see `Scaler`). -/
def Split.preprocess (s : Split) (fit : List Cell → Scaler) (imputeFlag : Bool)
    (all_null : String) (normalize : Bool)
    (use_ents ohc_ents use_cats ohc_cats : Bool) (rcs : Bool) :
    Split × Except PyError PreprocessResult :=
  match (if rcs then s.remove_cold_start none else (s, none)) with
  | (s0, some e) => (s0, .error e)
  | (s0, none) =>
    match Split.mapEntities s0 s0.fguide.entities with
    | (s1, some e) => (s1, .error e)
    | (s1, none) =>
      -- the eids are captured per entity right after it is mapped; later
      -- iterations touch other columns only, so reading them here is the same
      let trainEids := s1.fguide.entities.map (fun e => (e, s1.train.col e))
      let testEids := s1.fguide.entities.map (fun e => (e, s1.test.col e))
      match s1.impute s1.fguide.real_valueds qmedian all_null with
      | (s2, some e) => (s2, .error e)
      | (s2, none) =>
        match (if normalize then
                (if s2.fguide.real_valueds ≠ [] then
                  s2.scale s2.fguide.real_valueds fit
                 else (s2, none))
               else (s2, none)) with
        | (s3, some e) => (s3, .error e)
        | (s3, none) =>
          preprocessEncode s3 trainEids testEids use_ents ohc_ents use_cats ohc_cats

/-- The feature map of a `preprocess` outcome (`[]` when it raised). -/
def resFmap (r : Split × Except PyError PreprocessResult) : List String :=
  match r.2 with
  | .ok pr => pr.fmap
  | .error _ => []

/-- Did the call return normally? -/
def pyOk : Except PyError α → Bool
  | .ok _ => true
  | .error _ => false

/-! ### Concrete fixtures used by counterexamples and witnesses -/

/-- A generic feature guide for the small fixtures below. -/
def fgEx : FeatureGuide :=
  { target := "y", index := [], key := [], entities := ["e"],
    categoricals := [], real_valueds := ["a", "b"] }

/-- C3 fixture: one real column `a`. -/
def s3ex : Split :=
  { train := ⟨[("a", [some 1, some 3])]⟩, test := ⟨[("a", [some 2])]⟩,
    fguide := fgEx, column_maps := [], imputations := [], scalers := [] }

/-- A concrete stand-in for `StandardScaler` fitting (the theorems quantify
over the fitting function; any instance works for evaluation). -/
def fit3 : List Cell → Scaler := fun _ => ⟨2, 1⟩

/-- C4 fixture. -/
def s4ex : Split :=
  { train := ⟨[("a", [some 5, some 7])]⟩, test := ⟨[("a", [some 7])]⟩,
    fguide := fgEx, column_maps := [], imputations := [], scalers := [] }

/-- C7 fixture: column `a` is entirely null in train, `b` is not. -/
def s7ex : Split :=
  { train := ⟨[("a", [none, none]), ("b", [some 1, some 3])]⟩,
    test := ⟨[("a", [some 4, none]), ("b", [none, some 5])]⟩,
    fguide := fgEx, column_maps := [], imputations := [], scalers := [] }

/-- C2 witness fixture: same shape as the C7 one. -/
def s2ex : Split :=
  { train := ⟨[("a", [none, none]), ("b", [some 1, some 2])]⟩,
    test := ⟨[("a", [some 1, none]), ("b", [none, some 4])]⟩,
    fguide := fgEx, column_maps := [], imputations := [], scalers := [] }

/-- C8 fixture: a guide whose target and index names are ordinary words. -/
def fg8 : FeatureGuide :=
  { target := "grade", index := ["rowid"], key := ["sid"],
    entities := ["student"], categoricals := ["term"], real_valueds := [] }

/-- C9 fixture: three rows with a time-like column `t`. -/
def fg9 : FeatureGuide :=
  { target := "y", index := [], key := [], entities := ["e"],
    categoricals := [], real_valueds := ["t"] }

def ds9 : PandasFullDataset :=
  { dataset := ⟨[("e", [some 0, some 0, some 0]), ("t", [some 0, some 1, some 2]),
                 ("y", [some 1, some 1, some 1])]⟩, fguide := fg9 }

/-- C5 counterexample tables: equal column counts, different column names. -/
def tr5 : Table := ⟨[("a", [some 1]), ("b", [some 2])]⟩

def te5 : Table := ⟨[("a", [some 1]), ("c", [some 3])]⟩

/-- C1 counterexample: identical trains; the second test table lacks the
requested column `x` (legal: the constructor compares only column counts). -/
def sC1a : Split :=
  { train := ⟨[("x", [some 1, none])]⟩, test := ⟨[("x", [some 5])]⟩,
    fguide := fgEx, column_maps := [], imputations := [], scalers := [] }

def sC1b : Split :=
  { train := ⟨[("x", [some 1, none])]⟩, test := ⟨[("z", [some 5])]⟩,
    fguide := fgEx, column_maps := [], imputations := [], scalers := [] }

/-- C1 witness fixture: identical trains, same test schema, different test values. -/
def sC1w1 : Split :=
  { train := ⟨[("x", [some 1, some 3, none])]⟩, test := ⟨[("x", [some 9, none])]⟩,
    fguide := fgEx, column_maps := [], imputations := [], scalers := [] }

def sC1w2 : Split :=
  { train := ⟨[("x", [some 1, some 3, none])]⟩,
    test := ⟨[("x", [some 100, some 200])]⟩,
    fguide := fgEx, column_maps := [], imputations := [], scalers := [] }

/-- C6 witness fixture: test has a cold-start entity id 3. -/
def fgC6 : FeatureGuide :=
  { target := "y", index := [], key := [], entities := ["e"],
    categoricals := [], real_valueds := [] }

def sC6 : Split :=
  { train := ⟨[("e", [some 1, some 2]), ("y", [some 1, some 0])]⟩,
    test := ⟨[("e", [some 1, some 3, some 1]), ("y", [some 1, some 1, some 0])]⟩,
    fguide := fgC6, column_maps := [], imputations := [], scalers := [] }

/-- C10 witness fixture: one entity, one categorical, one real column. -/
def fgW : FeatureGuide :=
  { target := "y", index := [], key := [], entities := ["e"],
    categoricals := ["color"], real_valueds := ["gpa"] }

def sW : Split :=
  { train := ⟨[("e", [some 1, some 2]), ("color", [some 10, some 20]),
               ("gpa", [some 1, none]), ("y", [some 1, some 0])]⟩,
    test := ⟨[("e", [some 2]), ("color", [some 10]),
              ("gpa", [some 2]), ("y", [some 1])]⟩,
    fguide := fgW, column_maps := [], imputations := [], scalers := [] }

def fitW : List Cell → Scaler := fun _ => ⟨0, 1⟩

/-- Two splits that agree on everything except the test VALUES: same train
table, guide, transform state, and the same test column names (the test cells
may differ arbitrarily).  This is the relation under which `impute`/`scale`
run in lockstep. -/
def SameExceptTestVals (s1 s2 : Split) : Prop :=
  s1.train = s2.train ∧ s1.fguide = s2.fguide
  ∧ s1.column_maps = s2.column_maps ∧ s1.imputations = s2.imputations
  ∧ s1.scalers = s2.scalers ∧ s1.test.colNames = s2.test.colNames


/-! ### Basic lemmas about the embedding primitives -/

theorem dget_dset_self (k : String) (v : β) :
    ∀ l : List (String × β), dget k (dset k v l) = some v := by
  intro l
  induction l with
  | nil => simp [dget, dset]
  | cons p rest ih =>
    by_cases h : p.1 = k
    · simp [dget, dset, h]
    · simp [dget, dset, h, ih]

theorem dget_dset_ne (k k' : String) (v : β) (hne : k' ≠ k) :
    ∀ l : List (String × β), dget k (dset k' v l) = dget k l := by
  intro l
  have hne' : ¬ k = k' := fun hh => hne hh.symm
  induction l with
  | nil => simp [dget, dset, hne]
  | cons p rest ih =>
    by_cases h : p.1 = k'
    · simp [dget, dset, h, hne, hne']
    · by_cases h2 : p.1 = k
      · simp [dget, dset, h, h2, hne, hne']
      · simp [dget, dset, h, h2, ih]

theorem colFind_mapPairs (c a : String) (f : Cell → Cell) :
    ∀ l : List (String × List Cell),
      colFind c (l.map (fun p => if p.1 = a then (p.1, p.2.map f) else p))
        = if a = c then (colFind c l).map f else colFind c l := by
  intro l
  induction l with
  | nil => by_cases h : a = c <;> simp [colFind, h]
  | cons p rest ih =>
    by_cases hpa : p.1 = a
    · by_cases hac : a = c
      · have hpc : p.1 = c := hpa.trans hac
        simp [colFind, hpa, hac, hpc, ih]
      · have hpc : ¬ p.1 = c := by rw [hpa]; exact hac
        have hca : ¬ c = a := fun hh => hac hh.symm
        simp [colFind, hpa, hpc, hac, hca, ih]
    · by_cases hpc : p.1 = c
      · have hac : ¬ a = c := by intro h; exact hpa (by rw [h, hpc])
        have hca : ¬ c = a := fun hh => hac hh.symm
        simp [colFind, hpa, hpc, hac, hca]
      · simp [colFind, hpa, hpc, ih]

theorem col_mapCol_self (t : Table) (c : String) (f : Cell → Cell) :
    (t.mapCol c f).col c = (t.col c).map f := by
  simp [Table.col, Table.mapCol, colFind_mapPairs]

theorem col_mapCol_ne (t : Table) (a b : String) (f : Cell → Cell) (h : a ≠ b) :
    (t.mapCol a f).col b = t.col b := by
  simp [Table.col, Table.mapCol, colFind_mapPairs, h]

theorem length_col_mapCol (t : Table) (a b : String) (f : Cell → Cell) :
    ((t.mapCol a f).col b).length = (t.col b).length := by
  by_cases h : a = b
  · subst h; simp [col_mapCol_self]
  · simp [col_mapCol_ne t a b f h]

theorem colNames_mapCol (t : Table) (c : String) (f : Cell → Cell) :
    (t.mapCol c f).colNames = t.colNames := by
  show (t.cols.map _).map Prod.fst = t.cols.map Prod.fst
  induction t.cols with
  | nil => rfl
  | cons p rest ih =>
    by_cases h : p.1 = c <;> simp [h] <;> simpa using ih

theorem colNames_dropCol (t : Table) (c : String) :
    (t.dropCol c).colNames = t.colNames.filter (fun x => x ≠ c) := by
  show (t.cols.filter _).map Prod.fst = (t.cols.map Prod.fst).filter _
  induction t.cols with
  | nil => rfl
  | cons p rest ih =>
    by_cases h : p.1 = c <;> simp [h] <;> simpa using ih

theorem col_dropCol_ne (t : Table) (a b : String) (h : a ≠ b) :
    (t.dropCol a).col b = t.col b := by
  show colFind b (t.cols.filter _) = colFind b t.cols
  induction t.cols with
  | nil => rfl
  | cons p rest ih =>
    have hba : ¬ b = a := fun hh => h hh.symm
    simp only [decide_not] at ih
    by_cases hpa : p.1 = a
    · have hpb : ¬ p.1 = b := by rw [hpa]; exact h
      simp [colFind, decide_not, hpa, hpb, h, hba, ih]
    · by_cases hpb : p.1 = b <;> simp [colFind, decide_not, hpa, hpb, h, hba, ih]

theorem col_filterRows (t : Table) (m : List Bool) (c : String) :
    (t.filterRows m).col c = applyMask m (t.col c) := by
  show colFind c (t.cols.map _) = applyMask m (colFind c t.cols)
  induction t.cols with
  | nil => simp [colFind, applyMask]
  | cons p rest ih =>
    by_cases h : p.1 = c <;> simp [colFind, h, ih]

theorem colNames_filterRows (t : Table) (m : List Bool) :
    (t.filterRows m).colNames = t.colNames := by
  show (t.cols.map _).map Prod.fst = t.cols.map Prod.fst
  induction t.cols with
  | nil => rfl
  | cons p rest ih => simpa using ih

theorem hasCol_eq_of_colNames {t1 t2 : Table} (h : t1.colNames = t2.colNames) :
    ∀ c, t1.hasCol c = t2.hasCol c := by
  intro c; simp [Table.hasCol, h]

theorem applyMask_sublist : ∀ (m : List Bool) (vs : List Cell),
    (applyMask m vs).Sublist vs := by
  intro m
  induction m with
  | nil => intro vs; simp [applyMask]
  | cons b bs ih =>
    intro vs
    cases vs with
    | nil => simp [applyMask]
    | cons v rest =>
      by_cases hb : b
      · simpa [applyMask, hb] using (ih rest).cons₂ v
      · simp only [applyMask, hb, if_false]
        exact (ih rest).cons v

theorem applyMask_map_self (p : Cell → Bool) : ∀ vs : List Cell,
    applyMask (vs.map p) vs = vs.filter p := by
  intro vs
  induction vs with
  | nil => rfl
  | cons v rest ih =>
    by_cases h : p v <;> simp [applyMask, List.filter, h, ih]

/-! ### C3, C4, C7, C8, C9: evaluation of the code at the failing inputs -/

/-- C3.  The claim says `scale([col])` then `unscale([col])` succeeds, restores
the column and clears the scaled flag so a later `scale([col])` re-scales.  In
the code, `unscale` restores the train and test values but then executes
`self.scalers[col][1] = False` on the tuple stored by `scale`, raising
`TypeError`; the scaled flag stays `True`, so a subsequent `scale` skips the
column.  This contradicts the method's own documentation ("The scaling can be
reversed using `unscale`" / the `# mark not scaled` comment). -/
theorem C3_unscale_raises_TypeError :
    ((s3ex.scale ["a"] fit3).2 = none)
    ∧ ((s3ex.scale ["a"] fit3).1.train.col "a" = [some (-1), some 1])
    ∧ ((s3ex.scale ["a"] fit3).1.test.col "a" = [some 0])
    ∧ (((s3ex.scale ["a"] fit3).1.unscale ["a"]).2
        = some (PyError.typeError "tuple does not support item assignment"))
    ∧ (((s3ex.scale ["a"] fit3).1.unscale ["a"]).1.train.col "a" = [some 1, some 3])
    ∧ (((s3ex.scale ["a"] fit3).1.unscale ["a"]).1.test.col "a" = [some 2])
    ∧ (dget "a" ((s3ex.scale ["a"] fit3).1.unscale ["a"]).1.scalers
        = some (⟨2, 1⟩, true))
    ∧ ((((s3ex.scale ["a"] fit3).1.unscale ["a"]).1.scale ["a"] fit3).1.train.col "a"
        = [some 1, some 3]) := by
  with_unfolding_all decide

/-- C4.  The claim says `map_column_to_index` then `unmap_column_from_index`
succeeds, restores the ids and deletes the `column_maps` entry.  In the code,
`unmap_column_from_index` restores the train and test ids and then executes
`self.dataset[col] = self.dataset[col].apply(...)`, but `PandasTrainTestSplit`
never defines an attribute `dataset`: `AttributeError` is raised before
`del self.column_maps[col]`, so the entry survives.  (The idempotence half of
the claim does hold, as the second conjunct shows.) -/
theorem C4_unmap_raises_AttributeError :
    ((s4ex.map_column_to_index "a").2 = none)
    ∧ ((s4ex.map_column_to_index "a").1.train.col "a" = [some 0, some 1])
    ∧ ((s4ex.map_column_to_index "a").1.test.col "a" = [some 1])
    ∧ ((s4ex.map_column_to_index "a").1.map_column_to_index "a"
        = ((s4ex.map_column_to_index "a").1, none))
    ∧ (((s4ex.map_column_to_index "a").1.unmap_column_from_index "a").2
        = some (PyError.attributeError
            "PandasTrainTestSplit object has no attribute dataset"))
    ∧ (((s4ex.map_column_to_index "a").1.unmap_column_from_index "a").1.train.col "a"
        = [some 5, some 7])
    ∧ (((s4ex.map_column_to_index "a").1.unmap_column_from_index "a").1.test.col "a"
        = [some 7])
    ∧ ((dget "a"
        ((s4ex.map_column_to_index "a").1.unmap_column_from_index "a").1.column_maps).isSome
        = true) := by
  with_unfolding_all decide

/-- C7.  The claim says an all-null column under `all_null='ignore'` is
skipped: values untouched and **no** `imputations` entry.  The code's `ignore`
branch only logs — unlike the `drop` branch it has no `continue` — so the
column falls through: the fill value `median(all-null) = NaN` is computed and
recorded in `imputations`.  The column VALUES are indeed unchanged
(`fillna(NaN)` fills nothing) and the other requested column is imputed
normally, but the mapping gains a `col ↦ NaN` entry, contradicting the
documented "the column is ignored". -/
theorem C7_ignore_still_records_imputation :
    ((s7ex.impute ["a", "b"] qmedian "ignore").2 = none)
    ∧ ((s7ex.impute ["a", "b"] qmedian "ignore").1.train.col "a" = [none, none])
    ∧ ((s7ex.impute ["a", "b"] qmedian "ignore").1.test.col "a" = [some 4, none])
    ∧ (dget "a" (s7ex.impute ["a", "b"] qmedian "ignore").1.imputations
        = some none)
    ∧ (dget "b" (s7ex.impute ["a", "b"] qmedian "ignore").1.imputations
        = some (some 2))
    ∧ ((s7ex.impute ["a", "b"] qmedian "ignore").1.test.col "b"
        = [some 2, some 5]) := by
  with_unfolding_all decide

/-- C8.  The claim says `remove(name)` fails with a ConfigError-class error
(`AttributeError`) whenever `name` is the target, an index field, or a key
field.  The code's guard is `if name in self.other_sections`, and
`other_sections` holds the SECTION NAMES `('target', 'index')` — not the
guide's target/index field values — so removing the actual target (here
"grade") or an index field (here "rowid") falls through to the not-found path
and raises `KeyError` (NotFoundError-class) instead.  The key-field guard and
ordinary feature removal behave as claimed. -/
theorem C8_remove_target_raises_KeyError :
    (fg8.remove "grade"
      = .error (.keyError "feature grade not in feature guide"))
    ∧ (fg8.remove "rowid"
      = .error (.keyError "feature rowid not in feature guide"))
    ∧ (fg8.remove "sid" = .error (.attributeError "cannot remove features in key"))
    ∧ (fg8.remove "term" = .ok { fg8 with categoricals := [] })
    ∧ (fg8.remove "target"
      = .error (.attributeError "cannot remove feature from sections: target, index")) := by
  with_unfolding_all decide

/-- C9.  The claim says a splitter produced by `split_loop(col, train_cmp,
test_cmp, window)` applies `column >= v - window` to every training mask when
`window` is not None.  But `split_loop` constructs the splitter with the
literal `window=None`, discarding its argument: the produced splitter carries
no window, and the third yielded split (threshold `v = 2`, window 1) keeps the
training row with `t = 0` even though `0 < v - window = 1` — with the window
honoured its train `t` column would be `[some 1]`, not `[some 0, some 1]`. -/
theorem C9_split_loop_drops_window :
    ((ds9.split_loop "t" cellLt cellEqOp (some 1)).window = none)
    ∧ (((ds9.split_loop "t" cellLt cellEqOp (some 1)).iterSplits.get? 2).map
        (fun r => match r with
          | .ok sp => sp.train.col "t"
          | .error _ => []) = some [some 0, some 1])
    ∧ (cellGe (some 0) (cellSub (some 2) 1) = false) := by
  with_unfolding_all decide

/-! ### C5: construction checks -/

/-- C5 counterexample.  The claim says two tables whose column name sets
differ are rejected even when the column counts agree; here both tables are
nonempty with two columns each, named `a, b` and `a, c`, and construction
succeeds. -/
theorem C5_counterexample_names_not_checked :
    (tr5.nRows ≠ 0) ∧ (te5.nRows ≠ 0) ∧ (tr5.nCols = te5.nCols)
    ∧ (tr5.colNames ≠ te5.colNames)
    ∧ ((mkSplit tr5 te5 fgEx).toOption.isSome = true) := by
  with_unfolding_all decide

/-- C5 (amended): construction is rejected, before any state exists, when the
train table has 0 rows, or the test table has 0 rows, or the column COUNTS
differ; only the counts are compared, so equal-count tables with different
column names are accepted; when all three checks pass, construction succeeds
with fresh (empty) transform state. -/
theorem C5_construction_checks_counts (train test : Table) (fg : FeatureGuide) :
    (train.nRows = 0 →
      mkSplit train test fg = .error (.valueError "training set has 0 samples"))
    ∧ (train.nRows ≠ 0 → test.nRows = 0 →
      mkSplit train test fg = .error (.valueError "testing set has 0 samples"))
    ∧ (train.nRows ≠ 0 → test.nRows ≠ 0 → train.nCols ≠ test.nCols →
      mkSplit train test fg = .error (.valueError "num train cols != num test cols"))
    ∧ (train.nRows ≠ 0 → test.nRows ≠ 0 → train.nCols = test.nCols →
      mkSplit train test fg
        = .ok { train := train, test := test, fguide := fg,
                column_maps := [], imputations := [], scalers := [] }) := by
  refine ⟨?_, ?_, ?_, ?_⟩ <;> intros <;> simp [mkSplit, *]

/-- C5 witness: the amended claim applied to the counterexample tables. -/
theorem C5_construction_checks_counts_witness :
    mkSplit tr5 te5 fgEx
      = .ok { train := tr5, test := te5, fguide := fgEx,
              column_maps := [], imputations := [], scalers := [] } :=
  (C5_construction_checks_counts tr5 te5 fgEx).2.2.2
    (by decide) (by decide) (by decide)

/-! ### C2: atomicity of impute with all_null='raise' -/

/-- C2.  With `all_null='raise'`, columns all present, and at least one
requested column entirely null in the training partition, `impute` raises
`ValueError` from the pre-pass — which runs before the mutation loop — and
returns the split exactly as it was: tables and `imputations` untouched, no
requested column imputed at all. -/
theorem C2_impute_raise_is_atomic (s : Split) (cols : List String)
    (method : List Cell → Cell)
    (hpresent : ∀ c ∈ cols, s.train.hasCol c ∧ s.test.hasCol c)
    (hbad : ∃ c ∈ cols, s.trainColumnIsAllNull c) :
    ∃ msg, s.impute cols method "raise" = (s, some (PyError.valueError msg)) := by
  have hv : cols.find? (fun c => !(s.train.hasCol c)) = none := by
    rw [List.find?_eq_none]
    intro c hc
    simp [(hpresent c hc).1]
  have hb : (cols.find? (fun c => s.trainColumnIsAllNull c)).isSome := by
    rw [List.find?_isSome]
    obtain ⟨c, hc, h⟩ := hbad
    exact ⟨c, hc, h⟩
  obtain ⟨c0, hc0⟩ := Option.isSome_iff_exists.mp hb
  refine ⟨"all null column " ++ c0, ?_⟩
  simp [Split.impute, Split.verifyColumns, hv, Split.imputeRaiseCheck, hc0]

/-- C2 witness: concrete split where column `a` is all-null in train. -/
theorem C2_impute_raise_is_atomic_witness :
    ∃ msg, s2ex.impute ["a", "b"] qmedian "raise"
      = (s2ex, some (PyError.valueError msg)) :=
  C2_impute_raise_is_atomic s2ex ["a", "b"] qmedian (by decide)
    ⟨"a", by decide, by decide⟩

/-! ### C6: cold-start removal -/

theorem coldStartStep_train (s : Split) (k : String) :
    (coldStartStep s k).train = s.train := rfl

theorem coldStartStep_fguide (s : Split) (k : String) :
    (coldStartStep s k).fguide = s.fguide := rfl

theorem coldStartStep_col_sublist (s : Split) (k c : String) :
    ((coldStartStep s k).test.col c).Sublist (s.test.col c) := by
  show ((s.test.filterRows _).col c).Sublist (s.test.col c)
  rw [col_filterRows]
  exact applyMask_sublist _ _

/-- After its own step, the key column of the test table only holds values
that appear in the train column. -/
theorem coldStartStep_subset (s : Split) (k : String) :
    ∀ v ∈ (coldStartStep s k).test.col k, v ∈ s.train.col k := by
  intro v hv
  unfold coldStartStep at hv
  simp only at hv
  rw [col_filterRows, applyMask_map_self] at hv
  rw [List.mem_filter] at hv
  obtain ⟨hmem, hpred⟩ := hv
  by_contra habs
  have : v ∈ (s.test.col k).filter (fun v => decide ¬ v ∈ s.train.col k) := by
    rw [List.mem_filter]
    exact ⟨hmem, by simpa using habs⟩
  rw [decide_eq_true_iff] at hpred
  exact hpred this

theorem coldStartLoop_train : ∀ (ents : List String) (s : Split),
    (coldStartLoop s ents).1.train = s.train := by
  intro ents
  induction ents with
  | nil => intro s; rfl
  | cons k rest ih =>
    intro s
    by_cases h : s.test.hasCol k ∧ s.train.hasCol k
    · simp only [coldStartLoop, if_pos h]
      rw [ih, coldStartStep_train]
    · simp only [coldStartLoop, if_neg h]

theorem coldStartLoop_col_sublist : ∀ (ents : List String) (s : Split) (c : String),
    ((coldStartLoop s ents).1.test.col c).Sublist (s.test.col c) := by
  intro ents
  induction ents with
  | nil => intro s c; exact List.Sublist.refl _
  | cons k rest ih =>
    intro s c
    by_cases h : s.test.hasCol k ∧ s.train.hasCol k
    · simp only [coldStartLoop, if_pos h]
      exact (ih _ c).trans (coldStartStep_col_sublist s k c)
    · simp only [coldStartLoop, if_neg h]
      exact List.Sublist.refl _

theorem coldStartLoop_subset :
    ∀ (ents : List String) (s : Split) (e : String), e ∈ ents →
      (coldStartLoop s ents).2 = none →
      ∀ v ∈ (coldStartLoop s ents).1.test.col e, v ∈ s.train.col e := by
  intro ents
  induction ents with
  | nil => intro s e he; exact absurd he (List.not_mem_nil e)
  | cons k rest ih =>
    intro s e he hok v hv
    by_cases h : s.test.hasCol k ∧ s.train.hasCol k
    · simp only [coldStartLoop, if_pos h] at hv hok
      rcases List.mem_cons.mp he with heq | hmem
      · subst heq
        have hv' : v ∈ (coldStartStep s e).test.col e :=
          (coldStartLoop_col_sublist rest _ e).subset hv
        exact coldStartStep_subset s e v hv'
      · have := ih (coldStartStep s k) e hmem hok v hv
        rwa [coldStartStep_train] at this
    · simp only [coldStartLoop, if_neg h] at hok
      exact (Option.some_ne_none _ hok).elim

/-- C6.  When `remove_cold_start()` (no argument) returns without raising,
the train table is unchanged, every test column is a sublist of what it was
(rows were only dropped), and for every entity column of the guide the values
remaining in the test column all appear in the train column. -/
theorem C6_remove_cold_start_subset (s : Split)
    (hok : (s.remove_cold_start none).2 = none) :
    ((s.remove_cold_start none).1.train = s.train)
    ∧ (∀ c, ((s.remove_cold_start none).1.test.col c).Sublist (s.test.col c))
    ∧ (∀ e ∈ s.fguide.entities,
        ∀ v ∈ (s.remove_cold_start none).1.test.col e,
          v ∈ (s.remove_cold_start none).1.train.col e) := by
  refine ⟨coldStartLoop_train _ s, fun c => coldStartLoop_col_sublist _ s c, ?_⟩
  intro e he v hv
  have h1 : (s.remove_cold_start none).1.train = s.train := coldStartLoop_train _ s
  rw [h1]
  exact coldStartLoop_subset _ s e he hok v hv

/-- C6 witness: the cold-start id 3 is dropped from the test table and the
surviving test entity value 1 appears in the train entity column. -/
theorem C6_remove_cold_start_subset_witness :
    ((sC6.remove_cold_start none).1.train = sC6.train)
    ∧ some 1 ∈ (sC6.remove_cold_start none).1.train.col "e" :=
  ⟨(C6_remove_cold_start_subset sC6 (by with_unfolding_all decide)).1,
   (C6_remove_cold_start_subset sC6 (by with_unfolding_all decide)).2.2 "e"
     (by decide) (some 1) (by with_unfolding_all decide)⟩

/-! ### C1: lockstep lemmas — `impute`/`scale` never read the test values -/

theorem sameExceptTestVals_dropCol {s1 s2 : Split} (h : SameExceptTestVals s1 s2)
    (fg' : FeatureGuide) (name : String) :
    SameExceptTestVals
      { s1 with fguide := fg', train := s1.train.dropCol name,
                test := s1.test.dropCol name }
      { s2 with fguide := fg', train := s2.train.dropCol name,
                test := s2.test.dropCol name } := by
  obtain ⟨htr, hfg, hcm, him, hsc, htn⟩ := h
  exact ⟨by rw [htr], rfl, hcm, him, hsc,
    by rw [colNames_dropCol, colNames_dropCol, htn]⟩

theorem removeFeature_lockstep {s1 s2 : Split} (h : SameExceptTestVals s1 s2)
    (name : String) :
    SameExceptTestVals (s1.removeFeature name).1 (s2.removeFeature name).1
    ∧ (s1.removeFeature name).2 = (s2.removeFeature name).2 := by
  have hfg := h.2.1
  have htr := h.1
  have htn := h.2.2.2.2.2
  have hteh : s2.test.hasCol name = s1.test.hasCol name :=
    (hasCol_eq_of_colNames htn name).symm
  obtain ⟨htr', hfg', hcm, him, hsc, htn'⟩ := h
  unfold Split.removeFeature
  rw [← hfg, ← htr, hteh]
  cases hrem : s1.fguide.remove name with
  | error e => exact ⟨⟨htr', hfg', hcm, him, hsc, htn'⟩, rfl⟩
  | ok fg' =>
    dsimp only
    split_ifs with h1 h2
    · exact ⟨⟨rfl, rfl, hcm, him, hsc,
        by rw [colNames_dropCol, colNames_dropCol, htn']⟩, rfl⟩
    · exact ⟨⟨rfl, rfl, hcm, him, hsc, htn'⟩, rfl⟩
    · exact ⟨⟨rfl, rfl, hcm, him, hsc, htn'⟩, rfl⟩

theorem imputeOne_lockstep {s1 s2 : Split} (h : SameExceptTestVals s1 s2)
    (method : List Cell → Cell) (col : String) :
    SameExceptTestVals (imputeOne method s1 col).1 (imputeOne method s2 col).1
    ∧ (imputeOne method s1 col).2 = (imputeOne method s2 col).2 := by
  obtain ⟨htr, hfg, hcm, him, hsc, htn⟩ := h
  have hteh : s2.test.hasCol col = s1.test.hasCol col :=
    (hasCol_eq_of_colNames htn col).symm
  unfold imputeOne
  rw [← htr, hteh]
  split_ifs with h1 h2
  · refine ⟨⟨rfl, hfg, hcm, ?_, hsc, ?_⟩, rfl⟩
    · simp only [him]
    · rw [colNames_mapCol, colNames_mapCol]; exact htn
  · exact ⟨⟨rfl, hfg, hcm, him, hsc, htn⟩, rfl⟩
  · exact ⟨⟨htr, hfg, hcm, him, hsc, htn⟩, rfl⟩

theorem imputeLoop_lockstep (method : List Cell → Cell) (an : String) :
    ∀ (cols : List String) {s1 s2 : Split}, SameExceptTestVals s1 s2 →
      SameExceptTestVals (imputeLoop method an s1 cols).1
        (imputeLoop method an s2 cols).1
      ∧ (imputeLoop method an s1 cols).2 = (imputeLoop method an s2 cols).2 := by
  intro cols
  induction cols with
  | nil => intro s1 s2 h; exact ⟨h, rfl⟩
  | cons col rest ih =>
    intro s1 s2 h
    have htr := h.1
    have hcolnull : s2.trainColumnIsAllNull col = s1.trainColumnIsAllNull col := by
      unfold Split.trainColumnIsAllNull
      rw [htr]
    unfold imputeLoop
    by_cases hdrop : s1.trainColumnIsAllNull col ∧ an = "drop"
    · have hdrop2 : s2.trainColumnIsAllNull col ∧ an = "drop" :=
        ⟨by rw [hcolnull]; exact hdrop.1, hdrop.2⟩
      rw [if_pos hdrop, if_pos hdrop2]
      obtain ⟨hrel, herr⟩ := removeFeature_lockstep h col
      rcases h1 : s1.removeFeature col with ⟨r1, e1⟩
      rcases h2 : s2.removeFeature col with ⟨r2, e2⟩
      rw [h1, h2] at hrel herr
      simp only at hrel herr
      subst herr
      cases e1 with
      | none => exact ih hrel
      | some e => exact ⟨hrel, rfl⟩
    · have hdrop2 : ¬ (s2.trainColumnIsAllNull col ∧ an = "drop") := by
        rw [hcolnull]; exact hdrop
      rw [if_neg hdrop, if_neg hdrop2]
      obtain ⟨hrel, herr⟩ := imputeOne_lockstep h method col
      rcases h1 : imputeOne method s1 col with ⟨r1, e1⟩
      rcases h2 : imputeOne method s2 col with ⟨r2, e2⟩
      rw [h1, h2] at hrel herr
      simp only at hrel herr
      subst herr
      cases e1 with
      | none => exact ih hrel
      | some e => exact ⟨hrel, rfl⟩

/-- Python `impute` run on two splits related by `SameExceptTestVals` takes the same
decisions, raises (or not) identically, and produces identical stored state —
in particular identical `imputations` and `scalers`. -/
theorem impute_lockstep {s1 s2 : Split} (h : SameExceptTestVals s1 s2)
    (cols : List String) (method : List Cell → Cell) (an : String) :
    SameExceptTestVals (s1.impute cols method an).1 (s2.impute cols method an).1
    ∧ (s1.impute cols method an).2 = (s2.impute cols method an).2 := by
  have htr := h.1
  unfold Split.impute
  have hver : s2.verifyColumns cols = s1.verifyColumns cols := by
    unfold Split.verifyColumns
    rw [htr]
  have hrc : s2.imputeRaiseCheck cols = s1.imputeRaiseCheck cols := by
    unfold Split.imputeRaiseCheck Split.trainColumnIsAllNull
    rw [htr]
  rw [hver, hrc]
  by_cases hform : ¬ (an = "drop" ∨ an = "raise" ∨ an = "ignore")
  · rw [if_pos hform, if_pos hform]
    exact ⟨h, rfl⟩
  · rw [if_neg hform, if_neg hform]
    cases hv : s1.verifyColumns cols with
    | some e => exact ⟨h, rfl⟩
    | none =>
      dsimp only
      cases hr : (if an = "raise" then s1.imputeRaiseCheck cols else none) with
      | some e => exact ⟨h, rfl⟩
      | none => exact imputeLoop_lockstep method an cols h

theorem scaleLoop_lockstep (fit : List Cell → Scaler) :
    ∀ (cols : List String) {s1 s2 : Split}, SameExceptTestVals s1 s2 →
      SameExceptTestVals (scaleLoop fit s1 cols).1 (scaleLoop fit s2 cols).1
      ∧ (scaleLoop fit s1 cols).2 = (scaleLoop fit s2 cols).2 := by
  intro cols
  induction cols with
  | nil => intro s1 s2 h; exact ⟨h, rfl⟩
  | cons col rest ih =>
    intro s1 s2 h
    obtain ⟨htr, hfg, hcm, him, hsc, htn⟩ := h
    have hteh : s2.test.hasCol col = s1.test.hasCol col :=
      (hasCol_eq_of_colNames htn col).symm
    unfold scaleLoop
    rw [← hsc, ← htr, hteh]
    cases hd : dget col s1.scalers with
    | some pr =>
      rcases pr with ⟨sc0, fl⟩
      cases fl with
      | true => exact ih ⟨htr, hfg, hcm, him, hsc, htn⟩
      | false =>
        dsimp only
        split_ifs with h1
        · refine ih ⟨rfl, hfg, hcm, him, by rw [hsc], ?_⟩
          rw [colNames_mapCol, colNames_mapCol]; exact htn
        · exact ⟨⟨rfl, hfg, hcm, him, by rw [hsc], htn⟩, rfl⟩
    | none =>
      dsimp only
      split_ifs with h1
      · refine ih ⟨rfl, hfg, hcm, him, by rw [hsc], ?_⟩
        rw [colNames_mapCol, colNames_mapCol]; exact htn
      · exact ⟨⟨rfl, hfg, hcm, him, by rw [hsc], htn⟩, rfl⟩

theorem scale_lockstep {s1 s2 : Split} (h : SameExceptTestVals s1 s2)
    (cols : List String) (fit : List Cell → Scaler) :
    SameExceptTestVals (s1.scale cols fit).1 (s2.scale cols fit).1
    ∧ (s1.scale cols fit).2 = (s2.scale cols fit).2 := by
  have htr := h.1
  unfold Split.scale
  have hver : s2.verifyColumns cols = s1.verifyColumns cols := by
    unfold Split.verifyColumns
    rw [htr]
  rw [hver]
  cases hv : s1.verifyColumns cols with
  | some e => exact ⟨h, rfl⟩
  | none => exact scaleLoop_lockstep fit cols h

/-- When `all_null ≠ 'drop'`, `impute`'s loop never touches a column that is
not in the requested list: its stored fill, train cells and test cells are
preserved, whatever else happens (including an abort on a later column). -/
theorem imputeLoop_untouched (method : List Cell → Cell) (an : String)
    (hdropn : an ≠ "drop") (col : String) :
    ∀ (cols : List String) (s : Split), col ∉ cols →
      dget col (imputeLoop method an s cols).1.imputations = dget col s.imputations
      ∧ (imputeLoop method an s cols).1.train.col col = s.train.col col
      ∧ (imputeLoop method an s cols).1.test.col col = s.test.col col := by
  intro cols
  induction cols with
  | nil => intro s _; exact ⟨rfl, rfl, rfl⟩
  | cons c rest ih =>
    intro s hnotin
    have hcne : c ≠ col := fun hh => hnotin (hh ▸ List.mem_cons_self c rest)
    have hrest : col ∉ rest := fun hh => hnotin (List.mem_cons_of_mem c hh)
    have hdrop : ¬ (s.trainColumnIsAllNull c ∧ an = "drop") :=
      fun hh => hdropn hh.2
    unfold imputeLoop
    rw [if_neg hdrop]
    unfold imputeOne
    by_cases h1 : s.train.hasCol c
    · rw [if_pos h1]
      by_cases h2 : s.test.hasCol c
      · rw [if_pos h2]
        dsimp only
        obtain ⟨ha, hb, hc⟩ := ih _ hrest
        refine ⟨?_, ?_, ?_⟩
        · rw [ha]; exact dget_dset_ne col c _ hcne _
        · rw [hb]; exact col_mapCol_ne _ c col _ hcne
        · rw [hc]; exact col_mapCol_ne _ c col _ hcne
      · rw [if_neg h2]
        exact ⟨rfl, col_mapCol_ne _ c col _ hcne, rfl⟩
    · rw [if_neg h1]
      exact ⟨rfl, rfl, rfl⟩

/-- When `all_null ≠ 'drop'` and the loop finishes without raising, every
requested column's stored fill value is the statistic of the ORIGINAL train
column, and both partitions were filled with that same value.  (`cols.Nodup`
rules out a duplicate request recomputing on an already-filled column.) -/
theorem imputeLoop_stores (method : List Cell → Cell) (an : String)
    (hdropn : an ≠ "drop") :
    ∀ (cols : List String) (s : Split) (col : String), cols.Nodup → col ∈ cols →
      (imputeLoop method an s cols).2 = none →
      dget col (imputeLoop method an s cols).1.imputations
        = some (method (s.train.col col))
      ∧ (imputeLoop method an s cols).1.train.col col
        = (s.train.col col).map (fillnaCell (method (s.train.col col)))
      ∧ (imputeLoop method an s cols).1.test.col col
        = (s.test.col col).map (fillnaCell (method (s.train.col col))) := by
  intro cols
  induction cols with
  | nil => intro s col _ hmem; exact absurd hmem (List.not_mem_nil col)
  | cons c rest ih =>
    intro s col hnd hmem hok
    have hdrop : ¬ (s.trainColumnIsAllNull c ∧ an = "drop") :=
      fun hh => hdropn hh.2
    unfold imputeLoop at hok ⊢
    rw [if_neg hdrop] at hok ⊢
    unfold imputeOne at hok ⊢
    by_cases h1 : s.train.hasCol c
    · rw [if_pos h1] at hok ⊢
      by_cases h2 : s.test.hasCol c
      · rw [if_pos h2] at hok ⊢
        dsimp only at hok ⊢
        rcases List.mem_cons.mp hmem with heq | hmem'
        · subst heq
          have hcrest : col ∉ rest := (List.nodup_cons.mp hnd).1
          refine ⟨?_, ?_, ?_⟩
          · rw [(imputeLoop_untouched method an hdropn col rest _ hcrest).1]
            simp only [dget_dset_self]
          · rw [(imputeLoop_untouched method an hdropn col rest _ hcrest).2.1]
            simp only [col_mapCol_self]
          · rw [(imputeLoop_untouched method an hdropn col rest _ hcrest).2.2]
            simp only [col_mapCol_self]
        · have hcne : c ≠ col := fun hh =>
            (List.nodup_cons.mp hnd).1 (hh ▸ hmem')
          obtain ⟨ha, hb, hc⟩ :=
            ih _ col (List.nodup_cons.mp hnd).2 hmem' hok
          have htr' := col_mapCol_ne s.train c col (fillnaCell (method (s.train.col c))) hcne
          have hte' := col_mapCol_ne s.test c col (fillnaCell (method (s.train.col c))) hcne
          dsimp only at ha hb hc
          rw [htr'] at ha hb hc
          rw [hte'] at hc
          exact ⟨ha, hb, hc⟩
      · rw [if_neg h2] at hok
        exact absurd hok (by simp)
    · rw [if_neg h1] at hok
      exact absurd hok (by simp)

theorem scaleLoop_untouched (fit : List Cell → Scaler) (col : String) :
    ∀ (cols : List String) (s : Split), col ∉ cols →
      dget col (scaleLoop fit s cols).1.scalers = dget col s.scalers
      ∧ (scaleLoop fit s cols).1.train.col col = s.train.col col
      ∧ (scaleLoop fit s cols).1.test.col col = s.test.col col := by
  intro cols
  induction cols with
  | nil => intro s _; exact ⟨rfl, rfl, rfl⟩
  | cons c rest ih =>
    intro s hnotin
    have hcne : c ≠ col := fun hh => hnotin (hh ▸ List.mem_cons_self c rest)
    have hrest : col ∉ rest := fun hh => hnotin (List.mem_cons_of_mem c hh)
    unfold scaleLoop
    cases hd : dget c s.scalers with
    | some pr =>
      rcases pr with ⟨sc0, fl⟩
      cases fl with
      | true => exact ih _ hrest
      | false =>
        dsimp only
        by_cases h2 : s.test.hasCol c
        · rw [if_pos h2]
          obtain ⟨ha, hb, hc⟩ := ih _ hrest
          refine ⟨?_, ?_, ?_⟩
          · rw [ha]; exact dget_dset_ne col c _ hcne _
          · rw [hb]; exact col_mapCol_ne _ c col _ hcne
          · rw [hc]; exact col_mapCol_ne _ c col _ hcne
        · rw [if_neg h2]
          exact ⟨dget_dset_ne col c _ hcne _, col_mapCol_ne _ c col _ hcne, rfl⟩
    | none =>
      dsimp only
      by_cases h2 : s.test.hasCol c
      · rw [if_pos h2]
        obtain ⟨ha, hb, hc⟩ := ih _ hrest
        refine ⟨?_, ?_, ?_⟩
        · rw [ha]; exact dget_dset_ne col c _ hcne _
        · rw [hb]; exact col_mapCol_ne _ c col _ hcne
        · rw [hc]; exact col_mapCol_ne _ c col _ hcne
      · rw [if_neg h2]
        exact ⟨dget_dset_ne col c _ hcne _, col_mapCol_ne _ c col _ hcne, rfl⟩

/-- When `scale`'s loop finishes without raising, a requested column that had
no scaler yet gets exactly the scaler fitted on the ORIGINAL train column
(flag set), and both partitions are transformed with those same parameters. -/
theorem scaleLoop_stores (fit : List Cell → Scaler) :
    ∀ (cols : List String) (s : Split) (col : String), cols.Nodup → col ∈ cols →
      dget col s.scalers = none →
      (scaleLoop fit s cols).2 = none →
      dget col (scaleLoop fit s cols).1.scalers
        = some (fit (s.train.col col), true)
      ∧ (scaleLoop fit s cols).1.train.col col
        = (s.train.col col).map (cellMap (Scaler.transform (fit (s.train.col col))))
      ∧ (scaleLoop fit s cols).1.test.col col
        = (s.test.col col).map (cellMap (Scaler.transform (fit (s.train.col col)))) := by
  intro cols
  induction cols with
  | nil => intro s col _ hmem; exact absurd hmem (List.not_mem_nil col)
  | cons c rest ih =>
    intro s col hnd hmem hfresh hok
    unfold scaleLoop at hok ⊢
    rcases List.mem_cons.mp hmem with heq | hmem'
    · subst heq
      rw [hfresh] at hok ⊢
      dsimp only at hok ⊢
      by_cases h2 : s.test.hasCol col
      · rw [if_pos h2] at hok ⊢
        have hcrest : col ∉ rest := (List.nodup_cons.mp hnd).1
        refine ⟨?_, ?_, ?_⟩
        · rw [(scaleLoop_untouched fit col rest _ hcrest).1]
          simp only [dget_dset_self]
        · rw [(scaleLoop_untouched fit col rest _ hcrest).2.1]
          simp only [col_mapCol_self]
        · rw [(scaleLoop_untouched fit col rest _ hcrest).2.2]
          simp only [col_mapCol_self]
      · rw [if_neg h2] at hok
        exact absurd hok (by simp)
    · have hcne : c ≠ col := fun hh => (List.nodup_cons.mp hnd).1 (hh ▸ hmem')
      cases hd : dget c s.scalers with
      | some pr =>
        rcases pr with ⟨sc0, fl⟩
        cases fl with
        | true =>
          rw [hd] at hok
          dsimp only at hok ⊢
          exact ih _ col (List.nodup_cons.mp hnd).2 hmem' hfresh hok
        | false =>
          rw [hd] at hok
          dsimp only at hok ⊢
          by_cases h2 : s.test.hasCol c
          · rw [if_pos h2] at hok ⊢
            have hfresh' : dget col
                (dset c (fit (s.train.col c), true) s.scalers) = none := by
              rw [dget_dset_ne col c _ hcne]; exact hfresh
            obtain ⟨ha, hb, hc⟩ :=
              ih _ col (List.nodup_cons.mp hnd).2 hmem' hfresh' hok
            have htr' := col_mapCol_ne s.train c col
              (cellMap (Scaler.transform (fit (s.train.col c)))) hcne
            have hte' := col_mapCol_ne s.test c col
              (cellMap (Scaler.transform (fit (s.train.col c)))) hcne
            dsimp only at ha hb hc
            rw [htr'] at ha hb hc
            rw [hte'] at hc
            exact ⟨ha, hb, hc⟩
          · rw [if_neg h2] at hok
            exact absurd hok (by simp)
      | none =>
        rw [hd] at hok
        dsimp only at hok ⊢
        by_cases h2 : s.test.hasCol c
        · rw [if_pos h2] at hok ⊢
          have hfresh' : dget col
              (dset c (fit (s.train.col c), true) s.scalers) = none := by
            rw [dget_dset_ne col c _ hcne]; exact hfresh
          obtain ⟨ha, hb, hc⟩ :=
            ih _ col (List.nodup_cons.mp hnd).2 hmem' hfresh' hok
          have htr' := col_mapCol_ne s.train c col
            (cellMap (Scaler.transform (fit (s.train.col c)))) hcne
          have hte' := col_mapCol_ne s.test c col
            (cellMap (Scaler.transform (fit (s.train.col c)))) hcne
          dsimp only at ha hb hc
          rw [htr'] at ha hb hc
          rw [hte'] at hc
          exact ⟨ha, hb, hc⟩
        · rw [if_neg h2] at hok
          exact absurd hok (by simp)

theorem impute_eq_loop_of_ok {s : Split} {cols : List String}
    {method : List Cell → Cell} {an : String}
    (hok : (s.impute cols method an).2 = none) :
    s.impute cols method an = imputeLoop method an s cols := by
  unfold Split.impute at hok ⊢
  by_cases hform : ¬ (an = "drop" ∨ an = "raise" ∨ an = "ignore")
  · rw [if_pos hform] at hok
    exact absurd hok (by simp)
  · rw [if_neg hform] at hok ⊢
    cases hv : s.verifyColumns cols with
    | some e =>
      rw [hv] at hok
      exact absurd hok (by simp)
    | none =>
      rw [hv] at hok
      dsimp only at hok
      cases hr : (if an = "raise" then s.imputeRaiseCheck cols else none) with
      | some e =>
        rw [hr] at hok
        exact absurd hok (by simp)
      | none => rfl

theorem scale_eq_loop_of_ok {s : Split} {cols : List String}
    {fit : List Cell → Scaler}
    (hok : (s.scale cols fit).2 = none) :
    s.scale cols fit = scaleLoop fit s cols := by
  unfold Split.scale at hok ⊢
  cases hv : s.verifyColumns cols with
  | some e =>
    rw [hv] at hok
    exact absurd hok (by simp)
  | none => rfl

/-- C1 counterexample.  The claim quantifies over splits "whose test tables
differ arbitrarily".  Construction only compares column counts (see C5), so a
test table may lack a requested column; `impute` then raises `KeyError`
mid-loop (`self.test[col]`) and stores nothing, while the split whose test
table has the column stores the fill value: identical trains, different
stored imputation statistics. -/
theorem C1_counterexample_test_schema :
    (sC1a.train = sC1b.train) ∧ (sC1a.fguide = sC1b.fguide)
    ∧ (sC1a.imputations = sC1b.imputations) ∧ (sC1a.scalers = sC1b.scalers)
    ∧ ((sC1a.impute ["x"] qmedian "ignore").1.imputations
        ≠ (sC1b.impute ["x"] qmedian "ignore").1.imputations) := by
  with_unfolding_all decide

/-- C1 (amended).  Requiring in addition that the two test tables have the
same column names (the counterexample shows the claim fails without this),
`impute` and `scale` on two splits with identical trains, guides and transform
state run in lockstep: identical stored fills, identical stored scalers,
identical raising behaviour.  Moreover the stored statistics are functions of
the training partition alone: mutating the test partition of the result leaves
them unchanged, recomputing the statistic from the original train column
reproduces the stored value, and the same train-derived statistic is applied
to both partitions. -/
theorem C1_no_leakage_amended (s1 s2 : Split) (h : SameExceptTestVals s1 s2)
    (cols : List String) (method : List Cell → Cell) (an : String)
    (fit : List Cell → Scaler) :
    ((s1.impute cols method an).1.imputations
        = (s2.impute cols method an).1.imputations
      ∧ (s1.impute cols method an).1.scalers = (s2.impute cols method an).1.scalers
      ∧ (s1.impute cols method an).2 = (s2.impute cols method an).2)
    ∧ ((s1.scale cols fit).1.scalers = (s2.scale cols fit).1.scalers
      ∧ (s1.scale cols fit).2 = (s2.scale cols fit).2)
    ∧ (∀ t : Table, ({ (s1.impute cols method an).1 with test := t }).imputations
        = (s1.impute cols method an).1.imputations)
    ∧ (∀ t : Table, ({ (s1.scale cols fit).1 with test := t }).scalers
        = (s1.scale cols fit).1.scalers)
    ∧ (∀ col, col ∈ cols → cols.Nodup → an ≠ "drop" →
        (s1.impute cols method an).2 = none →
        dget col (s1.impute cols method an).1.imputations
          = some (method (s1.train.col col))
        ∧ (s1.impute cols method an).1.train.col col
          = (s1.train.col col).map (fillnaCell (method (s1.train.col col)))
        ∧ (s1.impute cols method an).1.test.col col
          = (s1.test.col col).map (fillnaCell (method (s1.train.col col))))
    ∧ (∀ col, col ∈ cols → cols.Nodup → dget col s1.scalers = none →
        (s1.scale cols fit).2 = none →
        dget col (s1.scale cols fit).1.scalers
          = some (fit (s1.train.col col), true)
        ∧ (s1.scale cols fit).1.train.col col
          = (s1.train.col col).map
              (cellMap (Scaler.transform (fit (s1.train.col col))))
        ∧ (s1.scale cols fit).1.test.col col
          = (s1.test.col col).map
              (cellMap (Scaler.transform (fit (s1.train.col col))))) := by
  obtain ⟨hrel, herr⟩ := impute_lockstep h cols method an
  obtain ⟨hrel2, herr2⟩ := scale_lockstep h cols fit
  refine ⟨⟨hrel.2.2.2.1, hrel.2.2.2.2.1, herr⟩, ⟨hrel2.2.2.2.2.1, herr2⟩,
    fun t => rfl, fun t => rfl, ?_, ?_⟩
  · intro col hmem hnd hdropn hok
    have heq := impute_eq_loop_of_ok hok
    rw [heq] at hok
    rw [heq]
    exact imputeLoop_stores method an hdropn cols s1 col hnd hmem hok
  · intro col hmem hnd hfresh hok
    have heq := scale_eq_loop_of_ok hok
    rw [heq] at hok
    rw [heq]
    exact scaleLoop_stores fit cols s1 col hnd hmem hfresh hok

/-- C1 witness: the amended lockstep and reproducibility statements applied to
two concrete splits with the same train and test schema but different test
values. -/
theorem C1_no_leakage_amended_witness :
    ((sC1w1.impute ["x"] qmedian "ignore").1.imputations
      = (sC1w2.impute ["x"] qmedian "ignore").1.imputations)
    ∧ (dget "x" (sC1w1.impute ["x"] qmedian "ignore").1.imputations
      = some (qmedian (sC1w1.train.col "x")))
    ∧ (dget "x" (sC1w1.scale ["x"] fitW).1.scalers
      = some (fitW (sC1w1.train.col "x"), true)) :=
  ⟨(C1_no_leakage_amended sC1w1 sC1w2
      ⟨rfl, rfl, rfl, rfl, rfl, rfl⟩ ["x"] qmedian "ignore" fitW).1.1,
   ((C1_no_leakage_amended sC1w1 sC1w2
      ⟨rfl, rfl, rfl, rfl, rfl, rfl⟩ ["x"] qmedian "ignore" fitW).2.2.2.2.1
      "x" (by decide) (by decide) (by decide) (by with_unfolding_all decide)).1,
   ((C1_no_leakage_amended sC1w1 sC1w2
      ⟨rfl, rfl, rfl, rfl, rfl, rfl⟩ ["x"] qmedian "ignore" fitW).2.2.2.2.2
      "x" (by decide) (by decide) (by decide) (by with_unfolding_all decide)).1⟩

/-! ### C10: the encoded column set and the feature map -/

theorem mem_osUnion_right {c : String} {a b : List String} (h : c ∈ b) :
    c ∈ osUnion a b := by
  by_cases ha : c ∈ a
  · exact List.mem_append_left _ ha
  · refine List.mem_append_right _ ?_
    rw [List.mem_filter]
    exact ⟨h, by simpa using ha⟩

theorem insertCell_ne_nil (x : Cell) (l : List Cell) : insertCell x l ≠ [] := by
  cases l with
  | nil => simp [insertCell]
  | cons y ys =>
    unfold insertCell
    split_ifs <;> simp

theorem sortCells_ne_nil {l : List Cell} (h : l ≠ []) : sortCells l ≠ [] := by
  cases l with
  | nil => exact absurd rfl h
  | cons x xs => exact insertCell_ne_nil x (sortCells xs)

theorem uniqueFirst_ne_nil {l : List Cell} (h : l ≠ []) : uniqueFirst l ≠ [] := by
  cases l with
  | nil => exact absurd rfl h
  | cons x xs => simp [uniqueFirst, uniqueAux]

theorem ohcLevels_ne_nil {train test : Table} {c : String}
    (h : train.col c ≠ []) : ohcLevels train test c ≠ [] := by
  apply sortCells_ne_nil
  apply uniqueFirst_ne_nil
  intro habs
  exact h (List.append_eq_nil.mp habs).1

/-- Every column in the encoded list contributes at least one label of the
form `column-level` to the feature map, provided its train column is
nonempty. -/
theorem encodeTables_fmap_mem (train test : Table) (columns : List String)
    {c : String} (hc : c ∈ columns) (hne : train.col c ≠ []) :
    ∃ lv, (c ++ "-" ++ lv) ∈ (encodeTables train test columns).2.2 := by
  obtain ⟨v, hv⟩ : ∃ v, v ∈ ohcLevels train test c := by
    cases hl : ohcLevels train test c with
    | nil => exact absurd hl (ohcLevels_ne_nil hne)
    | cons a as => exact ⟨a, hl ▸ List.mem_cons_self a as⟩
  refine ⟨cellLabel v, ?_⟩
  unfold encodeTables
  dsimp only
  rw [List.mem_flatten]
  refine ⟨(ohcLevels train test c).map (fun v => c ++ "-" ++ cellLabel v), ?_, ?_⟩
  · exact List.mem_map_of_mem _ hc
  · exact List.mem_map_of_mem _ hv

theorem coldStartLoop_fguide : ∀ (ents : List String) (s : Split),
    (coldStartLoop s ents).1.fguide = s.fguide := by
  intro ents
  induction ents with
  | nil => intro s; rfl
  | cons k rest ih =>
    intro s
    by_cases h : s.test.hasCol k ∧ s.train.hasCol k
    · simp only [coldStartLoop, if_pos h]
      exact ih _
    · simp only [coldStartLoop, if_neg h]

theorem map_column_to_index_fguide (s : Split) (col : String) :
    (s.map_column_to_index col).1.fguide = s.fguide := by
  unfold Split.map_column_to_index
  split_ifs <;> rfl

theorem map_column_to_index_train_col_length (s : Split) (col c : String) :
    ((s.map_column_to_index col).1.train.col c).length = (s.train.col c).length := by
  unfold Split.map_column_to_index
  split_ifs <;> first
    | rfl
    | exact length_col_mapCol s.train col c _

theorem mapEntities_fguide : ∀ (ents : List String) (s : Split),
    (Split.mapEntities s ents).1.fguide = s.fguide := by
  intro ents
  induction ents with
  | nil => intro s; rfl
  | cons e rest ih =>
    intro s
    unfold Split.mapEntities
    rcases h1 : s.map_column_to_index e with ⟨s', err⟩
    cases err with
    | none =>
      dsimp only
      rw [ih s']
      have := map_column_to_index_fguide s e
      rw [h1] at this
      exact this
    | some e0 =>
      dsimp only
      have := map_column_to_index_fguide s e
      rw [h1] at this
      exact this

theorem mapEntities_train_col_length : ∀ (ents : List String) (s : Split) (c : String),
    ((Split.mapEntities s ents).1.train.col c).length = (s.train.col c).length := by
  intro ents
  induction ents with
  | nil => intro s c; rfl
  | cons e rest ih =>
    intro s c
    unfold Split.mapEntities
    rcases h1 : s.map_column_to_index e with ⟨s', err⟩
    have hlen := map_column_to_index_train_col_length s e c
    rw [h1] at hlen
    cases err with
    | none =>
      dsimp only
      rw [ih s' c]
      exact hlen
    | some e0 =>
      dsimp only
      exact hlen

theorem imputeLoop_preserve (method : List Cell → Cell) (an : String)
    (hdropn : an ≠ "drop") (c : String) :
    ∀ (cols : List String) (s : Split),
      (imputeLoop method an s cols).1.fguide = s.fguide
      ∧ ((imputeLoop method an s cols).1.train.col c).length
          = (s.train.col c).length := by
  intro cols
  induction cols with
  | nil => intro s; exact ⟨rfl, rfl⟩
  | cons c0 rest ih =>
    intro s
    have hdrop : ¬ (s.trainColumnIsAllNull c0 ∧ an = "drop") :=
      fun hh => hdropn hh.2
    unfold imputeLoop
    rw [if_neg hdrop]
    unfold imputeOne
    by_cases h1 : s.train.hasCol c0
    · rw [if_pos h1]
      by_cases h2 : s.test.hasCol c0
      · rw [if_pos h2]
        dsimp only
        obtain ⟨ha, hb⟩ := ih _
        refine ⟨by rw [ha], ?_⟩
        rw [hb]
        exact length_col_mapCol s.train c0 c _
      · rw [if_neg h2]
        exact ⟨rfl, length_col_mapCol s.train c0 c _⟩
    · rw [if_neg h1]
      exact ⟨rfl, rfl⟩

theorem impute_preserve (s : Split) (cols : List String)
    (method : List Cell → Cell) (an : String) (hdropn : an ≠ "drop") (c : String) :
    (s.impute cols method an).1.fguide = s.fguide
    ∧ (((s.impute cols method an).1.train.col c).length = (s.train.col c).length) := by
  unfold Split.impute
  by_cases hform : ¬ (an = "drop" ∨ an = "raise" ∨ an = "ignore")
  · rw [if_pos hform]; exact ⟨rfl, rfl⟩
  · rw [if_neg hform]
    cases hv : s.verifyColumns cols with
    | some e => exact ⟨rfl, rfl⟩
    | none =>
      dsimp only
      cases hr : (if an = "raise" then s.imputeRaiseCheck cols else none) with
      | some e => exact ⟨rfl, rfl⟩
      | none => exact imputeLoop_preserve method an hdropn c cols s

theorem scaleLoop_preserve (fit : List Cell → Scaler) (c : String) :
    ∀ (cols : List String) (s : Split),
      (scaleLoop fit s cols).1.fguide = s.fguide
      ∧ ((scaleLoop fit s cols).1.train.col c).length
          = (s.train.col c).length := by
  intro cols
  induction cols with
  | nil => intro s; exact ⟨rfl, rfl⟩
  | cons c0 rest ih =>
    intro s
    unfold scaleLoop
    cases hd : dget c0 s.scalers with
    | some pr =>
      rcases pr with ⟨sc0, fl⟩
      cases fl with
      | true => exact ih _
      | false =>
        dsimp only
        by_cases h2 : s.test.hasCol c0
        · rw [if_pos h2]
          obtain ⟨ha, hb⟩ := ih _
          refine ⟨by rw [ha], ?_⟩
          rw [hb]
          exact length_col_mapCol s.train c0 c _
        · rw [if_neg h2]
          exact ⟨rfl, length_col_mapCol s.train c0 c _⟩
    | none =>
      dsimp only
      by_cases h2 : s.test.hasCol c0
      · rw [if_pos h2]
        obtain ⟨ha, hb⟩ := ih _
        refine ⟨by rw [ha], ?_⟩
        rw [hb]
        exact length_col_mapCol s.train c0 c _
      · rw [if_neg h2]
        exact ⟨rfl, length_col_mapCol s.train c0 c _⟩

theorem scale_preserve (s : Split) (cols : List String)
    (fit : List Cell → Scaler) (c : String) :
    (s.scale cols fit).1.fguide = s.fguide
    ∧ (((s.scale cols fit).1.train.col c).length = (s.train.col c).length) := by
  unfold Split.scale
  cases hv : s.verifyColumns cols with
  | some e => exact ⟨rfl, rfl⟩
  | none => exact scaleLoop_preserve fit c cols s

/-- With entities used and one-hot encoded (the defaults) and `use_cats` off,
whenever the encoding stage of `preprocess` returns normally, its feature map
still contains a one-hot label for the categorical column `c`. -/
theorem preprocessEncode_fmap (s3 : Split)
    (trE teE : List (String × List Cell)) (oc : Bool) (c : String)
    (hc : c ∈ s3.fguide.categoricals) (hne : s3.train.col c ≠ [])
    (hok : pyOk (preprocessEncode s3 trE teE true true false oc).2 = true) :
    ∃ lv, (c ++ "-" ++ lv)
      ∈ resFmap (preprocessEncode s3 trE teE true true false oc) := by
  have hcohc : c ∈ preprocessOhcColumns s3.fguide true true false oc :=
    mem_osUnion_right hc
  obtain ⟨lv, hlv⟩ := encodeTables_fmap_mem s3.train s3.test
    (preprocessOhcColumns s3.fguide true true false oc) hcohc hne
  refine ⟨lv, ?_⟩
  have hnonempty : (preprocessOhcColumns s3.fguide true true false oc).isEmpty
      = false := by
    cases hto : preprocessOhcColumns s3.fguide true true false oc with
    | nil => rw [hto] at hcohc; exact absurd hcohc (List.not_mem_nil c)
    | cons a as => rfl
  rcases hE : encodeTables s3.train s3.test
      (preprocessOhcColumns s3.fguide true true false oc) with ⟨trM, teM, fm⟩
  rw [hE] at hlv
  dsimp only at hlv
  cases hle : s3.fguide.entities.getLast? with
  | none =>
    exfalso
    rw [preprocessEncode.eq_def] at hok
    simp only [hnonempty, hE, hle, Bool.false_eq_true, if_false, if_true] at hok
    simp [pyOk] at hok
  | some lastEnt =>
    cases hfm : fm with
    | nil => rw [hfm] at hlv; exact absurd hlv (List.not_mem_nil _)
    | cons f fs =>
      rw [hfm] at hlv
      rw [preprocessEncode.eq_def, resFmap]
      simp only [hnonempty, hE, hle, hfm, Bool.false_eq_true, if_false, if_true]
      by_cases hr : s3.fguide.real_valueds.length = 0
      · simp only [hr, if_true, Bool.not_true, Bool.not_false, Bool.false_and,
          Bool.and_self]
        exact List.mem_append_left _ hlv
      · simp only [hr, if_false]
        exact List.mem_append_left _ hlv

/-- Chaining the preservation lemmas through the `preprocess` pipeline:
with the default flags but `use_cats := false`, a split with a categorical
column `c` whose preprocess run returns normally still has a `c-level` label
in the returned feature map. -/
theorem preprocess_fmap_categoricals (s : Split) (fit : List Cell → Scaler)
    (impF oc rcs : Bool) (c : String)
    (hc : c ∈ s.fguide.categoricals) (hne : s.train.col c ≠ [])
    (hok : pyOk (Split.preprocess s fit impF "raise" true true true false oc rcs).2
      = true) :
    ∃ lv, (c ++ "-" ++ lv)
      ∈ resFmap (Split.preprocess s fit impF "raise" true true true false oc rcs) := by
  rw [Split.preprocess.eq_def] at hok ⊢
  rcases hp0 : (if rcs then s.remove_cold_start none else (s, none)) with ⟨s0, e0⟩
  have h0 : s0.fguide = s.fguide ∧ s0.train = s.train := by
    by_cases hrcs : rcs
    · rw [if_pos hrcs] at hp0
      constructor
      · have h : (s.remove_cold_start none).1.fguide = s.fguide :=
          coldStartLoop_fguide _ s
        rw [hp0] at h; exact h
      · have h : (s.remove_cold_start none).1.train = s.train :=
          coldStartLoop_train _ s
        rw [hp0] at h; exact h
    · rw [if_neg hrcs] at hp0
      cases hp0
      exact ⟨rfl, rfl⟩
  rw [hp0] at hok
  cases e0 with
  | some e => simp [pyOk] at hok
  | none =>
    dsimp only at hok ⊢
    rcases hp1 : Split.mapEntities s0 s0.fguide.entities with ⟨s1, e1⟩
    have h1 : s1.fguide = s0.fguide
        ∧ (s1.train.col c).length = (s0.train.col c).length := by
      constructor
      · have := mapEntities_fguide s0.fguide.entities s0
        rw [hp1] at this; exact this
      · have := mapEntities_train_col_length s0.fguide.entities s0 c
        rw [hp1] at this; exact this
    rw [hp1] at hok
    cases e1 with
    | some e => simp [pyOk] at hok
    | none =>
      dsimp only at hok ⊢
      rcases hp2 : s1.impute s1.fguide.real_valueds qmedian "raise" with ⟨s2, e2⟩
      have h2 : s2.fguide = s1.fguide
          ∧ (s2.train.col c).length = (s1.train.col c).length := by
        have := impute_preserve s1 s1.fguide.real_valueds qmedian "raise"
          (by decide) c
        rw [hp2] at this; exact this
      rw [hp2] at hok
      cases e2 with
      | some e => simp [pyOk] at hok
      | none =>
        dsimp only at hok ⊢
        rcases hp3 : (if s2.fguide.real_valueds ≠ [] then
            s2.scale s2.fguide.real_valueds fit else (s2, none)) with ⟨s3, e3⟩
        have h3 : s3.fguide = s2.fguide
            ∧ (s3.train.col c).length = (s2.train.col c).length := by
          by_cases hreq : s2.fguide.real_valueds ≠ []
          · rw [if_pos hreq] at hp3
            have := scale_preserve s2 s2.fguide.real_valueds fit c
            rw [hp3] at this; exact this
          · rw [if_neg hreq] at hp3
            cases hp3
            exact ⟨rfl, rfl⟩
        rw [hp3] at hok
        cases e3 with
        | some e => simp [pyOk] at hok
        | none =>
          try dsimp only at hok
          try dsimp only
          have hc3 : c ∈ s3.fguide.categoricals := by
            rw [h3.1, h2.1, h1.1, h0.1]; exact hc
          have hne3 : s3.train.col c ≠ [] := by
            intro habs
            apply hne
            have hlen : (s3.train.col c).length = (s.train.col c).length := by
              rw [h3.2, h2.2, h1.2, h0.2]
            rw [habs] at hlen
            exact List.eq_nil_of_length_eq_zero hlen.symm
          exact preprocessEncode_fmap s3 _ _ oc c hc3 hne3 hok

/-- C10.  (i) The set of columns `preprocess` one-hot encodes (`to_ohc`)
ignores `use_cats`/`ohc_cats` entirely and always contains every categorical
column of the guide (only `use_ents ∧ ohc_ents` decides whether the entity
columns join it).  (ii) With `use_ents = true` (the default), the ENTIRE
result of `preprocess` is independent of `use_cats`/`ohc_cats` — the only
other place `use_cats` is read is `only_reals = not use_ents and not
use_cats`, which is false once entities are used.  (iii) Consequently, for
any split with a categorical column (nonempty in train) whose
`preprocess(use_cats=False)` call under otherwise-default flags returns
normally, the returned feature map still contains a one-hot label for that
categorical column. -/
theorem C10_use_cats_has_no_effect :
    (∀ (fg : FeatureGuide) (ue oe uc oc uc' oc' : Bool),
      preprocessOhcColumns fg ue oe uc oc = preprocessOhcColumns fg ue oe uc' oc'
      ∧ ∀ c ∈ fg.categoricals, c ∈ preprocessOhcColumns fg ue oe uc oc)
    ∧ (∀ (s : Split) (fit : List Cell → Scaler) (impF : Bool) (an : String)
        (nm oe uc oc uc' oc' rcs : Bool),
        Split.preprocess s fit impF an nm true oe uc oc rcs
          = Split.preprocess s fit impF an nm true oe uc' oc' rcs)
    ∧ (∀ (s : Split) (fit : List Cell → Scaler) (impF oc rcs : Bool) (c : String),
        c ∈ s.fguide.categoricals → s.train.col c ≠ [] →
        pyOk (Split.preprocess s fit impF "raise" true true true false oc rcs).2
          = true →
        ∃ lv, (c ++ "-" ++ lv)
          ∈ resFmap (Split.preprocess s fit impF "raise" true true true false oc rcs)) := by
  refine ⟨fun fg ue oe uc oc uc' oc' => ⟨rfl, fun c hc => mem_osUnion_right hc⟩,
    fun s fit impF an nm oe uc oc uc' oc' rcs => rfl,
    fun s fit impF oc rcs c hc hne hok =>
      preprocess_fmap_categoricals s fit impF oc rcs c hc hne hok⟩

/-- C10 witness: for the concrete split `sW` (categorical column "color"),
`use_cats := false` produces the same result as `use_cats := true,
ohc_cats := false`, and its feature map holds a "color-…" label. -/
theorem C10_use_cats_has_no_effect_witness :
    (Split.preprocess sW fitW true "raise" true true true false true true
      = Split.preprocess sW fitW true "raise" true true true true false true)
    ∧ (∃ lv, ("color" ++ "-" ++ lv)
        ∈ resFmap (Split.preprocess sW fitW true "raise" true true true false true true)) :=
  ⟨C10_use_cats_has_no_effect.2.1 sW fitW true "raise" true true false true true false true,
   C10_use_cats_has_no_effect.2.2 sW fitW true true true "color"
     (by decide) (by with_unfolding_all decide) (by with_unfolding_all decide)⟩
